import Mathlib

/-!
# Wallet-ledger verification for the distributor/store CMS backend

Shallow embedding of the wallet ledger engine of `backend/app/api/routes/`
(`wallet.py`, `orders.py`, `returns.py`, `reports.py`) and proofs of the
spec's testable properties about it.

Modelling conventions:
* ISO-8601 timestamp strings are totally ordered lexicographically, which
  coincides with chronological order; dates are modelled as `Nat`.
* Python `float` currency amounts are modelled as exact rationals `ℚ`
  (the algorithms only add and subtract).
* A supabase `.order("date", desc=False)` read is modelled as a stable
  ascending sort by date (`sortByDate`), ties keeping table row order.
* Inert display metadata (`payment_method`, `remarks`, `initiated_by`,
  audit logging, debug prints) is omitted: it never influences balances.
* Each route handler is a pure function `DB → request → DB × Except HttpError α`.
  `HTTPException` raised inside a `try` block whose `except Exception`
  clause re-raises `HTTPException(500, str(e))` surfaces as a 500 whose
  detail string records the original status and detail (FastAPI's
  `HTTPException` is an `Exception`, so the blanket handler catches it);
  handlers that have an `except HTTPException: raise` clause (orders
  create/update, returns, reports) surface the original status instead.
-/

/-- Transaction types stored in the `type` column of `wallet_transactions`. -/
inductive TxType where
  | RECHARGE
  | ORDER_PAYMENT
  | ORDER_REFUND
  | RETURN_CREDIT
  | JOURNAL_VOUCHER
  | TRANSFER_PAYMENT
deriving DecidableEq, Repr

/-- A row of the `wallet_transactions` table.  `id` is the primary key
(assigned from `DB.nextTxId`), `distributor_id`/`store_id` the owning
account, `amount` the signed delta, `balance_after` the cached running
balance snapshot. -/
structure Tx where
  id : Nat
  distributor_id : Option String
  store_id : Option String
  date : Nat
  typ : TxType
  amount : ℚ
  balance_after : ℚ
  order_id : Option String
deriving DecidableEq, Repr

/-- A row of the `distributors` table (wallet-relevant columns). -/
structure Distributor where
  id : String
  wallet_balance : ℚ
  credit_limit : ℚ
deriving DecidableEq, Repr

/-- A row of the `stores` table (wallet-relevant columns). -/
structure Store where
  id : String
  wallet_balance : ℚ
deriving DecidableEq, Repr

/-- Order status values used by the wallet-relevant paths. -/
inductive OrderStatus where
  | PENDING
  | DELIVERED
deriving DecidableEq, Repr

/-- A row of the `orders` table (wallet-relevant columns). -/
structure OrderRec where
  id : String
  distributor_id : String
  date : Nat
  total_amount : ℚ
  status : OrderStatus
deriving DecidableEq, Repr

/-- Return request status (returns.py `ReturnStatus`). -/
inductive ReturnStatus where
  | PENDING
  | APPROVED
  | REJECTED
  | CREDITED
deriving DecidableEq, Repr

/-- A row of the `returns` table (wallet-relevant columns). -/
structure ReturnRec where
  id : String
  distributor_id : String
  status : ReturnStatus
deriving DecidableEq, Repr

/-- The database state: the tables the ledger engine reads and writes,
plus a counter supplying fresh `wallet_transactions` primary keys. -/
structure DB where
  distributors : List Distributor
  stores : List Store
  wallet_transactions : List Tx
  orders : List OrderRec
  returns : List ReturnRec
  nextTxId : Nat
deriving DecidableEq, Repr

/-- `WalletRecharge` request schema (schemas.py). -/
structure WalletRecharge where
  distributorId : Option String
  storeId : Option String
  amount : ℚ
  date : Nat
deriving DecidableEq, Repr

/-- `JournalVoucher` request schema (schemas.py). -/
structure JournalVoucher where
  distributorId : Option String
  storeId : Option String
  amount : ℚ
  date : Nat
deriving DecidableEq, Repr

/-- An HTTP error response (`HTTPException(status_code, detail)`). -/
structure HttpError where
  status : Nat
  detail : String
deriving DecidableEq, Repr

/-- Response body of the recalculate endpoint (message field omitted:
it is a rendering of `transactions_updated`). -/
structure RecalcResult where
  final_balance : ℚ
  transactions_updated : Nat
deriving DecidableEq, Repr

/-- Stable ascending sort by `date`: the model of
`.order("date", desc=False)`. -/
def sortByDate (l : List Tx) : List Tx :=
  l.insertionSort (fun a b => a.date ≤ b.date)

/-- Sum of the signed `amount` column over a list of transactions. -/
def txSum (l : List Tx) : ℚ :=
  (l.map Tx.amount).sum

/-- Row filter `.eq("distributor_id", did)`. -/
def ownedByDistributor (did : String) (t : Tx) : Bool :=
  t.distributor_id = some did

/-- Row filter `.eq("store_id", sid)`. -/
def ownedByStore (sid : String) (t : Tx) : Bool :=
  t.store_id = some sid

/-- All wallet transactions of a distributor, in table (insertion) order. -/
def txsOfDistributor (db : DB) (did : String) : List Tx :=
  db.wallet_transactions.filter (ownedByDistributor did)

/-- All wallet transactions of a store, in table (insertion) order. -/
def txsOfStore (db : DB) (sid : String) : List Tx :=
  db.wallet_transactions.filter (ownedByStore sid)

/-- `.eq("id", did).single()` on the `distributors` table. -/
def findDistributor (db : DB) (did : String) : Option Distributor :=
  db.distributors.find? (fun d => d.id = did)

/-- `.eq("id", sid).single()` on the `stores` table. -/
def findStore (db : DB) (sid : String) : Option Store :=
  db.stores.find? (fun s => s.id = sid)

/-- `.eq("id", oid).single()` on the `orders` table. -/
def findOrder (db : DB) (oid : String) : Option OrderRec :=
  db.orders.find? (fun o => o.id = oid)

/-- `.eq("id", rid).single()` on the `returns` table. -/
def findReturn (db : DB) (rid : String) : Option ReturnRec :=
  db.returns.find? (fun r => r.id = rid)

/-- One `update({"balance_after": b}).eq("id", i)` statement against the
`wallet_transactions` table. -/
def updateTxBalance (i : Nat) (b : ℚ) (l : List Tx) : List Tx :=
  l.map (fun t => if t.id = i then { t with balance_after := b } else t)

/-- The sequence of balance updates issued by a recompute loop, applied
in loop order. -/
def applyBalanceUpdates (us : List (Nat × ℚ)) (l : List Tx) : List Tx :=
  us.foldl (fun acc p => updateTxBalance p.1 p.2 acc) l

/-- The `(id, running_balance)` pairs written by the recompute loop
(`running_balance += tx["amount"]; update ... eq("id", tx["id"])`),
starting from accumulator `r`. -/
def runningUpdates (r : ℚ) : List Tx → List (Nat × ℚ)
  | [] => []
  | t :: ts => (t.id, r + t.amount) :: runningUpdates (r + t.amount) ts

/-- The successive running-balance values themselves. -/
def runningList (r : ℚ) : List Tx → List ℚ
  | [] => []
  | t :: ts => (r + t.amount) :: runningList (r + t.amount) ts

/-- Value of the `running_balance` accumulator after the loop. -/
def finalRunning (r : ℚ) (l : List Tx) : ℚ :=
  l.foldl (fun acc t => acc + t.amount) r

/-- The recompute loop shared verbatim by the recharge, journal-voucher
and recalculate handlers (wallet.py): read the account's transactions
ordered by date ascending, recompute `balance_after` as a running sum
from zero writing each row back by id, and report the final running
balance and the number of rows visited. -/
def recomputeTxs (owned : Tx → Bool) (table : List Tx) : List Tx × ℚ × Nat :=
  let all_txs := sortByDate (table.filter owned)
  (applyBalanceUpdates (runningUpdates 0 all_txs) table,
   finalRunning 0 all_txs, all_txs.length)

/-- `update({"wallet_balance": b}).eq("id", did)` on `distributors`. -/
def setDistributorBalance (db : DB) (did : String) (b : ℚ) : DB :=
  let ds := db.distributors.map
    (fun d => if d.id = did then { d with wallet_balance := b } else d)
  { db with distributors := ds }

/-- `update({"wallet_balance": b}).eq("id", sid)` on `stores`. -/
def setStoreBalance (db : DB) (sid : String) (b : ℚ) : DB :=
  let ss := db.stores.map
    (fun s => if s.id = sid then { s with wallet_balance := b } else s)
  { db with stores := ss }

/-- `POST /wallet/recharge` (wallet.py `recharge_wallet`):
insert a RECHARGE row, then recompute every `balance_after` of the
account and its cached `wallet_balance`.  The 404 raised for a missing
account is caught by the handler's blanket `except Exception` clause and
re-raised as a 500 wrapping it. -/
def recharge_wallet (db : DB) (r : WalletRecharge) :
    DB × Except HttpError String :=
  match r.distributorId with
  | some did =>
    match findDistributor db did with
    | none => (db, .error ⟨500, "404: Distributor not found"⟩)
    | some _ =>
      let tx : Tx :=
        { id := db.nextTxId, distributor_id := some did, store_id := none,
          date := r.date, typ := .RECHARGE, amount := r.amount,
          balance_after := 0, order_id := none }
      let table := db.wallet_transactions ++ [tx]
      let rec1 := recomputeTxs (ownedByDistributor did) table
      let db1 : DB :=
        { db with wallet_transactions := rec1.1, nextTxId := db.nextTxId + 1 }
      (setDistributorBalance db1 did rec1.2.1, .ok "Wallet recharged successfully")
  | none =>
    match r.storeId with
    | some sid =>
      match findStore db sid with
      | none => (db, .error ⟨500, "404: Store not found"⟩)
      | some _ =>
        let tx : Tx :=
          { id := db.nextTxId, distributor_id := none, store_id := some sid,
            date := r.date, typ := .RECHARGE, amount := r.amount,
            balance_after := 0, order_id := none }
        let table := db.wallet_transactions ++ [tx]
        let rec1 := recomputeTxs (ownedByStore sid) table
        let db1 : DB :=
          { db with wallet_transactions := rec1.1, nextTxId := db.nextTxId + 1 }
        (setStoreBalance db1 sid rec1.2.1, .ok "Wallet recharged successfully")
    | none => (db, .ok "Wallet recharged successfully")

/-- `POST /wallet/journal-voucher` (wallet.py `record_journal_voucher`):
identical to the recharge flow with type JOURNAL_VOUCHER and a signed
amount. -/
def record_journal_voucher (db : DB) (j : JournalVoucher) :
    DB × Except HttpError String :=
  match j.distributorId with
  | some did =>
    match findDistributor db did with
    | none => (db, .error ⟨500, "404: Distributor not found"⟩)
    | some _ =>
      let tx : Tx :=
        { id := db.nextTxId, distributor_id := some did, store_id := none,
          date := j.date, typ := .JOURNAL_VOUCHER, amount := j.amount,
          balance_after := 0, order_id := none }
      let table := db.wallet_transactions ++ [tx]
      let rec1 := recomputeTxs (ownedByDistributor did) table
      let db1 : DB :=
        { db with wallet_transactions := rec1.1, nextTxId := db.nextTxId + 1 }
      (setDistributorBalance db1 did rec1.2.1,
       .ok "Journal voucher recorded successfully")
  | none =>
    match j.storeId with
    | some sid =>
      match findStore db sid with
      | none => (db, .error ⟨500, "404: Store not found"⟩)
      | some _ =>
        let tx : Tx :=
          { id := db.nextTxId, distributor_id := none, store_id := some sid,
            date := j.date, typ := .JOURNAL_VOUCHER, amount := j.amount,
            balance_after := 0, order_id := none }
        let table := db.wallet_transactions ++ [tx]
        let rec1 := recomputeTxs (ownedByStore sid) table
        let db1 : DB :=
          { db with wallet_transactions := rec1.1, nextTxId := db.nextTxId + 1 }
        (setStoreBalance db1 sid rec1.2.1,
         .ok "Journal voucher recorded successfully")
    | none => (db, .ok "Journal voucher recorded successfully")

/-- `POST /wallet/recalculate/{account_type}/{account_id}`
(wallet.py `recalculate_wallet_balances`): full recompute with no insert.
The 404/400 raised inside are wrapped into 500s by the blanket handler. -/
def recalculate_wallet_balances (db : DB) (account_type account_id : String) :
    DB × Except HttpError RecalcResult :=
  if account_type = "distributor" then
    match findDistributor db account_id with
    | none => (db, .error ⟨500, "404: Distributor not found"⟩)
    | some _ =>
      let rec1 := recomputeTxs (ownedByDistributor account_id) db.wallet_transactions
      let db1 : DB := { db with wallet_transactions := rec1.1 }
      (setDistributorBalance db1 account_id rec1.2.1,
       .ok { final_balance := rec1.2.1, transactions_updated := rec1.2.2 })
  else if account_type = "store" then
    match findStore db account_id with
    | none => (db, .error ⟨500, "404: Store not found"⟩)
    | some _ =>
      let rec1 := recomputeTxs (ownedByStore account_id) db.wallet_transactions
      let db1 : DB := { db with wallet_transactions := rec1.1 }
      (setStoreBalance db1 account_id rec1.2.1,
       .ok { final_balance := rec1.2.1, transactions_updated := rec1.2.2 })
  else
    (db, .error ⟨500, "400: account_type must be distributor or store"⟩)

/-- `POST /orders` (orders.py `create_order`), wallet-relevant slice.
The per-item SKU/GST computation (lines 68-109) only determines the
number `total_amount`; it is taken as an input here.  `now` is the
external `datetime.utcnow()` clock value.  After the existence read the
handler inserts the order row, debits the cached wallet balance by the
total, and appends an ORDER_PAYMENT transaction with the already-signed
(negative) amount and an O(1) `balance_after` snapshot; the credit-limit
check only logs a warning ("Order will proceed regardless of balance"). -/
def create_order (db : DB) (distributorId : String) (total_amount : ℚ)
    (now : Nat) : DB × Except HttpError OrderRec :=
  match findDistributor db distributorId with
  | none => (db, .error ⟨500, "single row expected on distributors"⟩)
  | some d =>
    let order : OrderRec :=
      { id := "ORD-" ++ toString now, distributor_id := distributorId,
        date := now, total_amount := total_amount, status := .PENDING }
    let db1 : DB := { db with orders := db.orders ++ [order] }
    let new_balance := d.wallet_balance - total_amount
    let db2 := setDistributorBalance db1 distributorId new_balance
    let tx : Tx :=
      { id := db2.nextTxId, distributor_id := some distributorId,
        store_id := none, date := now, typ := .ORDER_PAYMENT,
        amount := -total_amount, balance_after := new_balance,
        order_id := some order.id }
    let db3 : DB :=
      { db2 with wallet_transactions := db2.wallet_transactions ++ [tx],
                 nextTxId := db2.nextTxId + 1 }
    (db3, .ok order)

/-- `create_order` under the fault model that any single supabase call
may raise: `k` is the index of the first database *write* that fails
(0 = the order insert, 1 = the wallet-balance update, 2 = the
ORDER_PAYMENT transaction insert, ≥ 3 = no failure).  A failing write is
not applied; the raised error escapes the handler as a 500 and no
preceding write is rolled back (there is no enclosing database
transaction in the source). -/
def create_order_failAt (db : DB) (distributorId : String)
    (total_amount : ℚ) (now : Nat) (k : Nat) :
    DB × Except HttpError OrderRec :=
  match findDistributor db distributorId with
  | none => (db, .error ⟨500, "single row expected on distributors"⟩)
  | some d =>
    if k = 0 then (db, .error ⟨500, "insert into orders failed"⟩)
    else
      let order : OrderRec :=
        { id := "ORD-" ++ toString now, distributor_id := distributorId,
          date := now, total_amount := total_amount, status := .PENDING }
      let db1 : DB := { db with orders := db.orders ++ [order] }
      if k = 1 then (db1, .error ⟨500, "update of distributors failed"⟩)
      else
        let new_balance := d.wallet_balance - total_amount
        let db2 := setDistributorBalance db1 distributorId new_balance
        if k = 2 then
          (db2, .error ⟨500, "insert into wallet_transactions failed"⟩)
        else
          let tx : Tx :=
            { id := db2.nextTxId, distributor_id := some distributorId,
              store_id := none, date := now, typ := .ORDER_PAYMENT,
              amount := -total_amount, balance_after := new_balance,
              order_id := some order.id }
          let db3 : DB :=
            { db2 with
                wallet_transactions := db2.wallet_transactions ++ [tx],
                nextTxId := db2.nextTxId + 1 }
          (db3, .ok order)

/-- `PUT /orders/{order_id}/items` (orders.py `update_order_items`),
wallet-relevant slice with the recomputed total as input.  Updates the
order total, and when the delta is nonzero applies the O(1) wallet
adjustment and appends an ORDER_PAYMENT row for `-delta`. -/
def update_order_items (db : DB) (orderId : String) (newTotal : ℚ)
    (now : Nat) : DB × Except HttpError String :=
  match findOrder db orderId with
  | none => (db, .error ⟨404, "Order not found"⟩)
  | some ord =>
    let amount_delta := newTotal - ord.total_amount
    match findDistributor db ord.distributor_id with
    | none => (db, .error ⟨500, "single row expected on distributors"⟩)
    | some d =>
      let new_balance := d.wallet_balance - amount_delta
      let os := db.orders.map
        (fun o => if o.id = orderId then { o with total_amount := newTotal } else o)
      let db1 : DB := { db with orders := os }
      if amount_delta ≠ 0 then
        let db2 := setDistributorBalance db1 ord.distributor_id new_balance
        let tx : Tx :=
          { id := db2.nextTxId, distributor_id := some ord.distributor_id,
            store_id := none, date := now, typ := .ORDER_PAYMENT,
            amount := -amount_delta, balance_after := new_balance,
            order_id := some orderId }
        let db3 : DB :=
          { db2 with wallet_transactions := db2.wallet_transactions ++ [tx],
                     nextTxId := db2.nextTxId + 1 }
        (db3, .ok "Order items updated successfully")
      else
        (db1, .ok "Order items updated successfully")

/-- `DELETE /orders/{order_id}` (orders.py `delete_order`): if the order
is still PENDING, credit the wallet with an ORDER_REFUND of the original
total (O(1) snapshot), then delete the order row.  The 404 raised for a
missing order is wrapped into a 500 by the blanket handler. -/
def delete_order (db : DB) (orderId : String) (now : Nat) :
    DB × Except HttpError String :=
  match findOrder db orderId with
  | none => (db, .error ⟨500, "404: Order not found"⟩)
  | some ord =>
    if ord.status = .PENDING then
      match findDistributor db ord.distributor_id with
      | none => (db, .error ⟨500, "single row expected on distributors"⟩)
      | some d =>
        let new_balance := d.wallet_balance + ord.total_amount
        let db1 := setDistributorBalance db ord.distributor_id new_balance
        let tx : Tx :=
          { id := db1.nextTxId, distributor_id := some ord.distributor_id,
            store_id := none, date := now, typ := .ORDER_REFUND,
            amount := ord.total_amount, balance_after := new_balance,
            order_id := some orderId }
        let db2 : DB :=
          { db1 with wallet_transactions := db1.wallet_transactions ++ [tx],
                     nextTxId := db1.nextTxId + 1 }
        let db3 : DB :=
          { db2 with orders := db2.orders.filter (fun o => o.id ≠ orderId) }
        (db3, .ok "Order deleted successfully")
    else
      let db1 : DB :=
        { db with orders := db.orders.filter (fun o => o.id ≠ orderId) }
      (db1, .ok "Order deleted successfully")

/-- `PUT /returns/{return_id}/approve` (returns.py `approve_return`):
gated on the return being PENDING; credits the wallet with a
RETURN_CREDIT of the (possibly adjusted) `creditAmount` (O(1) snapshot)
and marks the return CREDITED.  This handler re-raises `HTTPException`,
so its 404/400 survive. -/
def approve_return (db : DB) (returnId : String) (creditAmount : ℚ)
    (now : Nat) : DB × Except HttpError String :=
  match findReturn db returnId with
  | none => (db, .error ⟨404, "Return not found"⟩)
  | some ret =>
    if ret.status ≠ .PENDING then
      (db, .error ⟨400, "Return already processed"⟩)
    else
      match findDistributor db ret.distributor_id with
      | none => (db, .error ⟨500, "single row expected on distributors"⟩)
      | some d =>
        let new_balance := d.wallet_balance + creditAmount
        let db1 := setDistributorBalance db ret.distributor_id new_balance
        let tx : Tx :=
          { id := db1.nextTxId, distributor_id := some ret.distributor_id,
            store_id := none, date := now, typ := .RETURN_CREDIT,
            amount := creditAmount, balance_after := new_balance,
            order_id := none }
        let db2 : DB :=
          { db1 with wallet_transactions := db1.wallet_transactions ++ [tx],
                     nextTxId := db1.nextTxId + 1 }
        let rs := db2.returns.map
          (fun r => if r.id = returnId then { r with status := .CREDITED } else r)
        let db3 : DB := { db2 with returns := rs }
        (db3, .ok "Return approved and credited")

/-- Row kinds of the customer statement. -/
inductive RowType where
  | ORDER
  | RECHARGE
  | JOURNAL_VOUCHER
  | RETURN_CREDIT
  | ORDER_REFUND
deriving DecidableEq, Repr

/-- One statement row (particulars text and shipment size omitted:
display-only). -/
structure StatementRow where
  date : Nat
  sale_amount : ℚ
  collection : ℚ
  jv : ℚ
  typ : RowType
  ob : ℚ
  cb : ℚ
deriving DecidableEq, Repr

/-- The statement response (header/company fields omitted). -/
structure Statement where
  opening_balance : ℚ
  closing_balance : ℚ
  rows : List StatementRow
deriving DecidableEq, Repr

/-- Stable ascending sort of orders by date. -/
def sortOrdersByDate (l : List OrderRec) : List OrderRec :=
  l.insertionSort (fun a b => a.date ≤ b.date)

/-- Stable ascending sort of statement rows by datetime
(`all_rows.sort(key=...["datetime"])`, Python sort is stable). -/
def sortRowsByDate (l : List StatementRow) : List StatementRow :=
  l.insertionSort (fun a b => a.date ≤ b.date)

/-- The statement row built from a wallet transaction, if its type gets
a row at all (ORDER_PAYMENT and TRANSFER_PAYMENT rows are skipped:
sales enter via the orders table instead). -/
def txStatementRow (t : Tx) : Option StatementRow :=
  match t.typ with
  | .RECHARGE =>
    some { date := t.date, sale_amount := 0, collection := t.amount,
           jv := 0, typ := .RECHARGE, ob := 0, cb := 0 }
  | .JOURNAL_VOUCHER =>
    some { date := t.date, sale_amount := 0, collection := 0,
           jv := t.amount, typ := .JOURNAL_VOUCHER, ob := 0, cb := 0 }
  | .RETURN_CREDIT =>
    some { date := t.date, sale_amount := 0, collection := 0,
           jv := t.amount, typ := .RETURN_CREDIT, ob := 0, cb := 0 }
  | .ORDER_REFUND =>
    some { date := t.date, sale_amount := 0, collection := 0,
           jv := t.amount, typ := .ORDER_REFUND, ob := 0, cb := 0 }
  | _ => none

/-- The statement row built from an order. -/
def orderStatementRow (o : OrderRec) : StatementRow :=
  { date := o.date, sale_amount := o.total_amount, collection := 0,
    jv := 0, typ := .ORDER, ob := 0, cb := 0 }

/-- The running-balance pass over the sorted rows:
`cb = ob - sale + collection + jv`. -/
def addRunning (bal : ℚ) : List StatementRow → List StatementRow
  | [] => []
  | row :: rest =>
    let cb := bal - row.sale_amount + row.collection + row.jv
    { row with ob := bal, cb := cb } :: addRunning cb rest

/-- Closing balance of the running pass. -/
def finalRowBalance (bal : ℚ) (rows : List StatementRow) : ℚ :=
  rows.foldl (fun b row => b - row.sale_amount + row.collection + row.jv) bal

/-- `GET /reports/customer-statement/{distributor_id}` (reports.py
`get_customer_statement`): read-only.  Opening balance is the
`balance_after` of the last transaction dated strictly before
`start_date` (via `.lt("date", start).order("date", desc=True).limit(1)`,
modelled as the last element of the stable ascending sort), or 0 if
none; orders and wallet transactions are filtered to
`start_date ≤ date ≤ end_date` (`.gte`/`.lte`). -/
def get_customer_statement (db : DB) (did : String)
    (start_date end_date : Nat) : DB × Except HttpError Statement :=
  match findDistributor db did with
  | none => (db, .error ⟨404, "Distributor not found"⟩)
  | some _ =>
    let orders := sortOrdersByDate (db.orders.filter
      (fun o => o.distributor_id = did ∧ start_date ≤ o.date ∧ o.date ≤ end_date))
    let transactions := sortByDate ((txsOfDistributor db did).filter
      (fun t => start_date ≤ t.date ∧ t.date ≤ end_date))
    let opening_balance :=
      match (sortByDate ((txsOfDistributor db did).filter
        (fun t => t.date < start_date))).getLast? with
      | none => 0
      | some t => t.balance_after
    let all_rows := sortRowsByDate
      (orders.map orderStatementRow ++ transactions.filterMap txStatementRow)
    let statement_rows := addRunning opening_balance all_rows
    (db, .ok { opening_balance := opening_balance,
               closing_balance := finalRowBalance opening_balance all_rows,
               rows := statement_rows })

/-- The ledger-mutating operations of the system (the seven call sites
that touch `wallet_balance` / `wallet_transactions`). -/
inductive LedgerOp where
  | recharge (r : WalletRecharge)
  | journalVoucher (j : JournalVoucher)
  | placeOrder (distributorId : String) (total : ℚ) (now : Nat)
  | editOrder (orderId : String) (newTotal : ℚ) (now : Nat)
  | cancelOrder (orderId : String) (now : Nat)
  | approveReturn (returnId : String) (credit : ℚ) (now : Nat)
  | recalc (accountType accountId : String)

/-- State transition of one ledger-mutating operation (the handlers
only mutate state before raising, so the error cases leave `db`
unchanged except where modelled otherwise). -/
def applyOp (db : DB) : LedgerOp → DB
  | .recharge r => (recharge_wallet db r).1
  | .journalVoucher j => (record_journal_voucher db j).1
  | .placeOrder did total now => (create_order db did total now).1
  | .editOrder oid newTotal now => (update_order_items db oid newTotal now).1
  | .cancelOrder oid now => (delete_order db oid now).1
  | .approveReturn rid credit now => (approve_return db rid credit now).1
  | .recalc at_ aid => (recalculate_wallet_balances db at_ aid).1

/-- State after a sequence of ledger-mutating operations. -/
def applyOps (db : DB) (ops : List LedgerOp) : DB :=
  ops.foldl applyOp db

/-- The core consistency invariant: every account's cached
`wallet_balance` equals the sum of the signed amounts of its wallet
transactions. -/
def Consistent (db : DB) : Prop :=
  (∀ d ∈ db.distributors, d.wallet_balance = txSum (txsOfDistributor db d.id)) ∧
  (∀ s ∈ db.stores, s.wallet_balance = txSum (txsOfStore db s.id))

/-- Well-formedness of the transaction table: primary keys are distinct
and below the fresh-id counter. -/
def WellFormed (db : DB) : Prop :=
  (db.wallet_transactions.map Tx.id).Nodup ∧
  ∀ i ∈ db.wallet_transactions.map Tx.id, i < db.nextTxId

/-- Spec §4.1, strategy 1 (append-then-recompute-all), stated from the
spec's words: "insert the new row, then re-read every transaction for
the account ordered by date ascending, and recompute `balance_after`
for each as a running sum from zero, writing back every row's new
snapshot and finally the account's cached balance to the last value".
Returns the account's rows (in date order) with their new snapshots and
the new cached balance. -/
def appendThenRecomputeAll (txs : List Tx) (newTx : Tx) : List Tx × ℚ :=
  let sorted := sortByDate (txs ++ [newTx])
  (List.zipWith (fun t b => { t with balance_after := b }) sorted
     (runningList 0 sorted),
   ((runningList 0 sorted).getLast?).getD 0)

/-- Example distributor used by the concrete test states. -/
def exD1 : Distributor := { id := "D1", wallet_balance := 130, credit_limit := 0 }

/-- Existing transactions with balances [100, 150, 130] (spec §8,
backdated-insert property). -/
def exTx0 : Tx :=
  { id := 0, distributor_id := some "D1", store_id := none, date := 10,
    typ := .RECHARGE, amount := 100, balance_after := 100, order_id := none }

def exTx1 : Tx :=
  { id := 1, distributor_id := some "D1", store_id := none, date := 20,
    typ := .RECHARGE, amount := 50, balance_after := 150, order_id := none }

def exTx2 : Tx :=
  { id := 2, distributor_id := some "D1", store_id := none, date := 30,
    typ := .ORDER_PAYMENT, amount := -20, balance_after := 130, order_id := none }

/-- Concrete state for the backdated-insert test: balances [100, 150, 130]. -/
def exDB3 : DB :=
  { distributors := [exD1], stores := [],
    wallet_transactions := [exTx0, exTx1, exTx2], orders := [], returns := [],
    nextTxId := 3 }

/-- A backdated RECHARGE(+30), dated before every existing entry. -/
def exRecharge30 : WalletRecharge :=
  { distributorId := some "D1", storeId := none, amount := 30, date := 5 }

/-- Fresh single-distributor state (wallet 0, credit 0, no transactions). -/
def exFresh : DB :=
  { distributors := [{ id := "D1", wallet_balance := 0, credit_limit := 0 }],
    stores := [], wallet_transactions := [], orders := [], returns := [],
    nextTxId := 0 }

/-- Distributor with wallet 10 and credit limit 5 and no transactions:
an order of 100 exceeds `wallet_balance + credit_limit`. -/
def exDB9 : DB :=
  { distributors := [{ id := "D1", wallet_balance := 10, credit_limit := 5 }],
    stores := [], wallet_transactions := [], orders := [], returns := [],
    nextTxId := 0 }

/-- State with no accounts at all. -/
def exEmpty : DB :=
  { distributors := [], stores := [], wallet_transactions := [], orders := [],
    returns := [], nextTxId := 0 }

instance : IsTotal Tx (fun a b => a.date ≤ b.date) :=
  ⟨fun a b => Nat.le_total a.date b.date⟩

instance : IsTrans Tx (fun a b => a.date ≤ b.date) :=
  ⟨fun _ _ _ h₁ h₂ => Nat.le_trans h₁ h₂⟩

/-- The effect of a recompute loop's update sequence on a single row:
the row receives the last balance written against its id, if any. -/
def applyUpds (us : List (Nat × ℚ)) (t : Tx) : Tx :=
  us.foldl (fun s p => if s.id = p.1 then { s with balance_after := p.2 } else s) t

/-- Date-and-amount projection of a row (the data the recompute result
depends on). -/
def damProj (t : Tx) : Nat × ℚ := (t.date, t.amount)

/-- Date, amount and balance snapshot of a row (row identity up to
primary key). -/
def projRow (t : Tx) : Nat × ℚ × ℚ := (t.date, t.amount, t.balance_after)

/-- Date/amount/running-balance triples generated from date-amount
pairs: the semantic content of a recomputed ledger. -/
def runProj (r : ℚ) : List (Nat × ℚ) → List (Nat × ℚ × ℚ)
  | [] => []
  | (dt, am) :: rest => (dt, am, r + am) :: runProj (r + am) rest

/-- Combined invariant: consistency plus table well-formedness. -/
def LedgerInv (db : DB) : Prop := Consistent db ∧ WellFormed db

/-- The RECHARGE row inserted by the distributor branch of
`recharge_wallet`. -/
def rechargeTxD (db : DB) (did : String) (r : WalletRecharge) : Tx :=
  { id := db.nextTxId, distributor_id := some did, store_id := none,
    date := r.date, typ := .RECHARGE, amount := r.amount,
    balance_after := 0, order_id := none }

/-- The RECHARGE row inserted by the store branch of `recharge_wallet`. -/
def rechargeTxS (db : DB) (sid : String) (r : WalletRecharge) : Tx :=
  { id := db.nextTxId, distributor_id := none, store_id := some sid,
    date := r.date, typ := .RECHARGE, amount := r.amount,
    balance_after := 0, order_id := none }

/-- The JOURNAL_VOUCHER row inserted by the distributor branch of
`record_journal_voucher`. -/
def jvTxD (db : DB) (did : String) (j : JournalVoucher) : Tx :=
  { id := db.nextTxId, distributor_id := some did, store_id := none,
    date := j.date, typ := .JOURNAL_VOUCHER, amount := j.amount,
    balance_after := 0, order_id := none }

/-- The JOURNAL_VOUCHER row inserted by the store branch of
`record_journal_voucher`. -/
def jvTxS (db : DB) (sid : String) (j : JournalVoucher) : Tx :=
  { id := db.nextTxId, distributor_id := none, store_id := some sid,
    date := j.date, typ := .JOURNAL_VOUCHER, amount := j.amount,
    balance_after := 0, order_id := none }

/-- Post-state of a recompute-and-set on the distributor side (shared
shape of the successful recharge / journal-voucher / recalculate
branches; `newTxs` is `[the inserted row]` or `[]`, `bump` the counter
increment). -/
def recomputeStateD (db : DB) (did : String) (newTxs : List Tx)
    (bump : Nat) : DB :=
  setDistributorBalance
    { db with
        wallet_transactions :=
          (recomputeTxs (ownedByDistributor did)
            (db.wallet_transactions ++ newTxs)).1,
        nextTxId := db.nextTxId + bump }
    did
    (recomputeTxs (ownedByDistributor did)
      (db.wallet_transactions ++ newTxs)).2.1

/-- Post-state of a recompute-and-set on the store side. -/
def recomputeStateS (db : DB) (sid : String) (newTxs : List Tx)
    (bump : Nat) : DB :=
  setStoreBalance
    { db with
        wallet_transactions :=
          (recomputeTxs (ownedByStore sid)
            (db.wallet_transactions ++ newTxs)).1,
        nextTxId := db.nextTxId + bump }
    sid
    (recomputeTxs (ownedByStore sid)
      (db.wallet_transactions ++ newTxs)).2.1

/-- A future-dated recharge followed by an earlier-dated order
placement: the operation sequence of the last-transaction
counterexample. -/
def exOpsC1 : List LedgerOp :=
  [.recharge { distributorId := some "D1", storeId := none,
               amount := 100, date := 100 },
   .placeOrder "D1" 30 50]

/-- The cached distributor balance agrees with the `balance_after` of
the account's chronologically last transaction. -/
def LastSnapshotAgreesD (db : DB) (did : String) : Prop :=
  ((sortByDate (txsOfDistributor db did)).getLast?).map Tx.balance_after
    = (findDistributor db did).map Distributor.wallet_balance

/-- The cached store balance agrees with the `balance_after` of the
account's chronologically last transaction. -/
def LastSnapshotAgreesS (db : DB) (sid : String) : Prop :=
  ((sortByDate (txsOfStore db sid)).getLast?).map Tx.balance_after
    = (findStore db sid).map Store.wallet_balance

-- ### Basic lemmas about the recompute-loop primitives

/-- The recompute loop's sequential per-row updates amount to a single
map over the table. -/
theorem applyBalanceUpdates_eq_map (us : List (Nat × ℚ)) (l : List Tx) :
    applyBalanceUpdates us l = l.map (applyUpds us) := by
  induction us generalizing l with
  | nil =>
    have h0 : applyUpds ([] : List (Nat × ℚ)) = id := rfl
    simp [applyBalanceUpdates, h0]
  | cons p us ih =>
    have h1 : applyBalanceUpdates (p :: us) l
        = applyBalanceUpdates us (updateTxBalance p.1 p.2 l) := rfl
    rw [h1, ih, updateTxBalance, List.map_map]
    rfl

/-- `applyUpds` only ever touches the `balance_after` field. -/
theorem applyUpds_fields (us : List (Nat × ℚ)) (t : Tx) :
    (applyUpds us t).id = t.id ∧ (applyUpds us t).date = t.date ∧
    (applyUpds us t).amount = t.amount ∧
    (applyUpds us t).distributor_id = t.distributor_id ∧
    (applyUpds us t).store_id = t.store_id := by
  induction us generalizing t with
  | nil => exact ⟨rfl, rfl, rfl, rfl, rfl⟩
  | cons p us ih =>
    by_cases h : t.id = p.1
    · simpa [applyUpds, List.foldl_cons, h] using ih { t with balance_after := p.2 }
    · simpa [applyUpds, List.foldl_cons, h] using ih t

/-- A row whose id is never written is unchanged. -/
theorem applyUpds_not_mem (us : List (Nat × ℚ)) (t : Tx)
    (h : t.id ∉ us.map Prod.fst) : applyUpds us t = t := by
  induction us generalizing t with
  | nil => rfl
  | cons p us ih =>
    simp only [List.map_cons, List.mem_cons, not_or] at h
    have h1 : applyUpds (p :: us) t = applyUpds us t := by
      simp [applyUpds, List.foldl_cons, if_neg h.1]
    rw [h1]
    exact ih t h.2

/-- If a row's id is written at least once, its incoming balance is
irrelevant. -/
theorem applyUpds_overwrite (us : List (Nat × ℚ)) (t : Tx)
    (h : t.id ∈ us.map Prod.fst) (b : ℚ) :
    applyUpds us { t with balance_after := b } = applyUpds us t := by
  induction us generalizing t with
  | nil => simp at h
  | cons p us ih =>
    by_cases hp : t.id = p.1
    · show applyUpds us (if ({ t with balance_after := b } : Tx).id = p.1
          then _ else _) = applyUpds us (if t.id = p.1 then _ else _)
      rw [if_pos hp, if_pos hp]
    · have h' : t.id ∈ us.map Prod.fst := by
        simpa [List.map_cons, hp] using h
      show applyUpds us (if ({ t with balance_after := b } : Tx).id = p.1
          then _ else _) = applyUpds us (if t.id = p.1 then _ else _)
      rw [if_neg hp, if_neg hp]
      exact ih t h'

/-- `applyUpds` only rewrites the balance field (shape lemma). -/
theorem applyUpds_shape (us : List (Nat × ℚ)) (t : Tx) :
    ∃ b, applyUpds us t = { t with balance_after := b } := by
  induction us generalizing t with
  | nil => exact ⟨t.balance_after, rfl⟩
  | cons p us ih =>
    by_cases hp : t.id = p.1
    · obtain ⟨b, hb⟩ := ih { t with balance_after := p.2 }
      refine ⟨b, ?_⟩
      show applyUpds us (if t.id = p.1 then _ else _) = _
      rw [if_pos hp]
      exact hb
    · obtain ⟨b, hb⟩ := ih t
      refine ⟨b, ?_⟩
      show applyUpds us (if t.id = p.1 then _ else _) = _
      rw [if_neg hp]
      exact hb

/-- Replaying the same update sequence is idempotent on a row. -/
theorem applyUpds_idem (us : List (Nat × ℚ)) (t : Tx) :
    applyUpds us (applyUpds us t) = applyUpds us t := by
  by_cases h : t.id ∈ us.map Prod.fst
  · obtain ⟨b, hb⟩ := applyUpds_shape us t
    calc applyUpds us (applyUpds us t)
        = applyUpds us { t with balance_after := b } := by rw [hb]
      _ = applyUpds us t := applyUpds_overwrite us t h b
  · rw [applyUpds_not_mem us t h, applyUpds_not_mem us t h]

/-- The ids written by the recompute loop are exactly the ids of the
rows it visits, in order. -/
theorem runningUpdates_fst (r : ℚ) (l : List Tx) :
    (runningUpdates r l).map Prod.fst = l.map Tx.id := by
  induction l generalizing r with
  | nil => rfl
  | cons t ts ih => simp [runningUpdates, ih]

/-- Applying the loop's updates to the visited rows themselves (when
their ids are distinct) installs exactly the running balances. -/
theorem map_applyUpds_running (S : List Tx) (r : ℚ)
    (h : (S.map Tx.id).Nodup) :
    S.map (applyUpds (runningUpdates r S)) =
      List.zipWith (fun t b => { t with balance_after := b }) S
        (runningList r S) := by
  induction S generalizing r with
  | nil => rfl
  | cons t ts ih =>
    simp only [List.map_cons, List.nodup_cons] at h
    obtain ⟨hnot, hts⟩ := h
    have hhead : applyUpds (runningUpdates r (t :: ts)) t
        = { t with balance_after := r + t.amount } := by
      have h1 : applyUpds (runningUpdates r (t :: ts)) t
          = applyUpds (runningUpdates (r + t.amount) ts)
              { t with balance_after := r + t.amount } := by
        show applyUpds _ (if t.id = t.id then _ else _) = _
        rw [if_pos rfl]
      rw [h1]
      apply applyUpds_not_mem
      rw [runningUpdates_fst]
      exact hnot
    have htail : ts.map (applyUpds (runningUpdates r (t :: ts)))
        = ts.map (applyUpds (runningUpdates (r + t.amount) ts)) := by
      apply List.map_congr_left
      intro u hu
      have hne : u.id ≠ t.id := by
        intro he
        exact hnot (he ▸ List.mem_map_of_mem Tx.id hu)
      show applyUpds _ (if u.id = t.id then _ else _) = _
      rw [if_neg hne]
    calc (t :: ts).map (applyUpds (runningUpdates r (t :: ts)))
        = applyUpds (runningUpdates r (t :: ts)) t
            :: ts.map (applyUpds (runningUpdates r (t :: ts))) := rfl
      _ = { t with balance_after := r + t.amount }
            :: ts.map (applyUpds (runningUpdates (r + t.amount) ts)) := by
          rw [hhead, htail]
      _ = _ := by rw [ih (r + t.amount) hts]; rfl

/-- Sums split over appends. -/
theorem txSum_append (l₁ l₂ : List Tx) :
    txSum (l₁ ++ l₂) = txSum l₁ + txSum l₂ := by
  simp [txSum]

/-- Balance rewrites do not change the amounts, hence not the sum. -/
theorem txSum_map_applyUpds (us : List (Nat × ℚ)) (l : List Tx) :
    txSum (l.map (applyUpds us)) = txSum l := by
  simp only [txSum, List.map_map]
  congr 1
  apply List.map_congr_left
  intro t _
  exact (applyUpds_fields us t).2.2.1

/-- Sorting permutes, so it preserves the sum. -/
theorem txSum_sortByDate (l : List Tx) : txSum (sortByDate l) = txSum l := by
  simp only [txSum]
  exact ((List.perm_insertionSort _ l).map Tx.amount).sum_eq

/-- The loop accumulator ends at the start value plus the sum. -/
theorem finalRunning_eq (r : ℚ) (l : List Tx) :
    finalRunning r l = r + txSum l := by
  induction l generalizing r with
  | nil => simp [finalRunning, txSum]
  | cons t ts ih =>
    have h1 : finalRunning r (t :: ts) = finalRunning (r + t.amount) ts := rfl
    rw [h1, ih (r + t.amount)]
    simp [txSum, add_assoc]

/-- The last running balance written is the loop's final accumulator. -/
theorem runningList_getLast (t : Tx) (ts : List Tx) (r : ℚ) :
    (runningList r (t :: ts)).getLast? = some (finalRunning r (t :: ts)) := by
  induction ts generalizing r t with
  | nil => rfl
  | cons u ts ih =>
    have h1 : runningList r (t :: u :: ts)
        = (r + t.amount) :: runningList (r + t.amount) (u :: ts) := rfl
    have h2 : runningList (r + t.amount) (u :: ts)
        = (r + t.amount + u.amount) :: runningList (r + t.amount + u.amount) ts := rfl
    rw [h1, h2, List.getLast?_cons_cons, ← h2, ih u (r + t.amount)]
    rfl

/-- Sorting commutes with any per-row function that preserves dates. -/
theorem sortByDate_map (f : Tx → Tx) (hf : ∀ t, (f t).date = t.date)
    (l : List Tx) : sortByDate (l.map f) = (sortByDate l).map f := by
  refine (List.map_insertionSort (fun a b : Tx => a.date ≤ b.date)
    (fun a b : Tx => a.date ≤ b.date) f l ?_).symm
  intro a _ b _
  show a.date ≤ b.date ↔ (f a).date ≤ (f b).date
  rw [hf a, hf b]

/-- Filtering commutes with any per-row function preserving the
predicate. -/
theorem filter_map_pres (p : Tx → Bool) (f : Tx → Tx)
    (hf : ∀ t, p (f t) = p t) (l : List Tx) :
    (l.map f).filter p = (l.filter p).map f := by
  rw [List.filter_map]
  congr 1
  apply List.filter_congr
  intro t _
  exact hf t

/-- First component of the recompute: the table with every visited
row's balance rewritten. -/
theorem recompute_fst (owned : Tx → Bool) (table : List Tx) :
    (recomputeTxs owned table).1 =
      table.map (applyUpds
        (runningUpdates 0 (sortByDate (table.filter owned)))) := by
  simp [recomputeTxs, applyBalanceUpdates_eq_map]

/-- The recompute's reported final balance is the plain sum of the
account's amounts. -/
theorem recompute_final (owned : Tx → Bool) (table : List Tx) :
    (recomputeTxs owned table).2.1 = txSum (table.filter owned) := by
  have h1 : (recomputeTxs owned table).2.1
      = finalRunning 0 (sortByDate (table.filter owned)) := rfl
  rw [h1, finalRunning_eq, txSum_sortByDate, zero_add]

/-- The recompute's reported row count. -/
theorem recompute_count (owned : Tx → Bool) (table : List Tx) :
    (recomputeTxs owned table).2.2 = (table.filter owned).length := by
  have h1 : (recomputeTxs owned table).2.2
      = (sortByDate (table.filter owned)).length := rfl
  rw [h1, sortByDate, List.length_insertionSort]

/-- Ids of a table slice stay Nodup. -/
theorem nodup_ids_sorted_filter (owned : Tx → Bool) (table : List Tx)
    (h : (table.map Tx.id).Nodup) :
    ((sortByDate (table.filter owned)).map Tx.id).Nodup := by
  have hsub : ((table.filter owned).map Tx.id).Nodup :=
    ((List.filter_sublist table).map Tx.id).nodup h
  exact (((List.perm_insertionSort _ (table.filter owned)).map Tx.id).nodup_iff).mpr hsub

/-- Characterization of the recompute on the account's own rows: in
date order they become the running-sum snapshots (table ids must be
distinct, which `WellFormed` provides). -/
theorem recompute_sorted_filter (owned : Tx → Bool) (table : List Tx)
    (hids : (table.map Tx.id).Nodup)
    (hown : ∀ us t, owned (applyUpds us t) = owned t) :
    sortByDate (((recomputeTxs owned table).1).filter owned) =
      List.zipWith (fun t b => { t with balance_after := b })
        (sortByDate (table.filter owned))
        (runningList 0 (sortByDate (table.filter owned))) := by
  rw [recompute_fst]
  set us := runningUpdates 0 (sortByDate (table.filter owned)) with hus
  rw [filter_map_pres owned (applyUpds us) (hown us) table]
  rw [sortByDate_map (applyUpds us) (fun t => (applyUpds_fields us t).2.1)]
  exact map_applyUpds_running _ 0 (nodup_ids_sorted_filter owned table hids)

/-- Balance rewrites keep the distributor-ownership predicate. -/
theorem ownedByDistributor_applyUpds (did : String) (us : List (Nat × ℚ))
    (t : Tx) :
    ownedByDistributor did (applyUpds us t) = ownedByDistributor did t := by
  simp [ownedByDistributor, (applyUpds_fields us t).2.2.2.1]

/-- Balance rewrites keep the store-ownership predicate. -/
theorem ownedByStore_applyUpds (sid : String) (us : List (Nat × ℚ))
    (t : Tx) :
    ownedByStore sid (applyUpds us t) = ownedByStore sid t := by
  simp [ownedByStore, (applyUpds_fields us t).2.2.2.2]

/-- Balance rewrites keep the id column. -/
theorem map_id_map_applyUpds (us : List (Nat × ℚ)) (l : List Tx) :
    (l.map (applyUpds us)).map Tx.id = l.map Tx.id := by
  rw [List.map_map]
  apply List.map_congr_left
  intro t _
  exact (applyUpds_fields us t).1

/-- Updating a distributor's cached balance, seen through the
`.single()` lookup of the same id. -/
theorem find?_set_balance (l : List Distributor) (did : String) (v : ℚ) :
    (l.map (fun d => if d.id = did then { d with wallet_balance := v } else d)).find?
        (fun d => d.id = did) =
      (l.find? (fun d => d.id = did)).map
        (fun d => { d with wallet_balance := v }) := by
  induction l with
  | nil => rfl
  | cons d ds ih =>
    by_cases h : d.id = did
    · rw [List.map_cons, if_pos h,
        List.find?_cons_of_pos _ (by simp [h]),
        List.find?_cons_of_pos _ (by simp [h])]
      rfl
    · rw [List.map_cons, if_neg h,
        List.find?_cons_of_neg _ (by simp [h]),
        List.find?_cons_of_neg _ (by simp [h])]
      exact ih

/-- Same, for stores. -/
theorem find?_set_balance_store (l : List Store) (sid : String) (v : ℚ) :
    (l.map (fun s => if s.id = sid then { s with wallet_balance := v } else s)).find?
        (fun s => s.id = sid) =
      (l.find? (fun s => s.id = sid)).map
        (fun s => { s with wallet_balance := v }) := by
  induction l with
  | nil => rfl
  | cons s ss ih =>
    by_cases h : s.id = sid
    · rw [List.map_cons, if_pos h,
        List.find?_cons_of_pos _ (by simp [h]),
        List.find?_cons_of_pos _ (by simp [h])]
      rfl
    · rw [List.map_cons, if_neg h,
        List.find?_cons_of_neg _ (by simp [h]),
        List.find?_cons_of_neg _ (by simp [h])]
      exact ih

/-- The amounts of an account slice of a recomputed table (possibly
with rows appended first) are untouched. -/
theorem txSum_filter_recompute (owned owned2 : Tx → Bool) (table : List Tx)
    (hown2 : ∀ us t, owned2 (applyUpds us t) = owned2 t) :
    txSum (((recomputeTxs owned table).1).filter owned2) =
      txSum (table.filter owned2) := by
  rw [recompute_fst]
  set us := runningUpdates 0 (sortByDate (table.filter owned))
  rw [filter_map_pres owned2 (applyUpds us) (hown2 us) table,
    txSum_map_applyUpds]

/-- Ids of a recomputed table are the ids of the input table. -/
theorem ids_recompute (owned : Tx → Bool) (table : List Tx) :
    ((recomputeTxs owned table).1).map Tx.id = table.map Tx.id := by
  rw [recompute_fst, map_id_map_applyUpds]

/-- Well-formedness transports along states whose transaction ids are
the old ids with the fresh id appended and whose counter was bumped. -/
theorem wf_append_ids (db db₂ : DB) (hW : WellFormed db)
    (hids : db₂.wallet_transactions.map Tx.id
      = db.wallet_transactions.map Tx.id ++ [db.nextTxId])
    (hn : db₂.nextTxId = db.nextTxId + 1) : WellFormed db₂ := by
  obtain ⟨hnd, hlt⟩ := hW
  constructor
  · rw [hids]
    refine List.Nodup.append hnd (List.nodup_singleton _) ?_
    intro i hi hj
    rw [List.mem_singleton] at hj
    subst hj
    exact absurd (hlt _ hi) (lt_irrefl _)
  · intro i hi
    rw [hids] at hi
    rw [hn]
    rcases List.mem_append.mp hi with h | h
    · exact Nat.lt_succ_of_lt (hlt i h)
    · rw [List.mem_singleton] at h
      subst h
      exact Nat.lt_succ_self _

/-- Well-formedness transports along states with identical transaction
ids and counter. -/
theorem wf_same_ids (db db₂ : DB) (hW : WellFormed db)
    (hids : db₂.wallet_transactions.map Tx.id
      = db.wallet_transactions.map Tx.id)
    (hn : db₂.nextTxId = db.nextTxId) : WellFormed db₂ := by
  obtain ⟨hnd, hlt⟩ := hW
  refine ⟨hids ▸ hnd, ?_⟩
  intro i hi
  rw [hids] at hi
  rw [hn]
  exact hlt i hi

/-- A freshly keyed transaction is absent from the old rows, so the
owner-slice of an append splits. -/
theorem filter_append_txs (p : Tx → Bool) (l newTxs : List Tx) :
    (l ++ newTxs).filter p = l.filter p ++ newTxs.filter p :=
  List.filter_append l newTxs

/-- Consistency is preserved by any state produced by the
recompute-and-set pattern on a distributor account: the new rows (if
any) belong to the target distributor, every row's balance may be
rewritten, the target's cached balance becomes the recompute's final
value, stores are untouched. -/
theorem consistent_recompute_dist (db db₂ : DB) (did : String)
    (newTxs : List Tx) (hC : Consistent db)
    (hnew : ∀ t ∈ newTxs, t.distributor_id = some did ∧ t.store_id = none)
    (hdists : db₂.distributors = db.distributors.map
      (fun e => if e.id = did then
        { e with wallet_balance :=
            (recomputeTxs (ownedByDistributor did)
              (db.wallet_transactions ++ newTxs)).2.1 }
        else e))
    (hstores : db₂.stores = db.stores)
    (htxs : db₂.wallet_transactions =
      (recomputeTxs (ownedByDistributor did)
        (db.wallet_transactions ++ newTxs)).1) :
    Consistent db₂ := by
  obtain ⟨hCd, hCs⟩ := hC
  constructor
  · intro e' he'
    rw [hdists, List.mem_map] at he'
    obtain ⟨e, he, rfl⟩ := he'
    have hidp : (if e.id = did then
        ({ e with wallet_balance :=
            (recomputeTxs (ownedByDistributor did)
              (db.wallet_transactions ++ newTxs)).2.1 } : Distributor)
        else e).id = e.id := by
      by_cases h : e.id = did <;> simp [h]
    rw [hidp]
    have hsum : txSum (txsOfDistributor db₂ e.id)
        = txSum ((db.wallet_transactions ++ newTxs).filter
            (ownedByDistributor e.id)) := by
      simp only [txsOfDistributor, htxs]
      exact txSum_filter_recompute _ _ _
        (fun us t => ownedByDistributor_applyUpds e.id us t)
    by_cases h : e.id = did
    · rw [if_pos h]
      rw [hsum, h, recompute_final]
    · rw [if_neg h]
      rw [hsum, filter_append_txs, txSum_append]
      have hnil : newTxs.filter (ownedByDistributor e.id) = [] := by
        apply List.filter_eq_nil_iff.mpr
        intro t ht
        have ht1 := (hnew t ht).1
        simp only [ownedByDistributor, ht1]
        simp only [Option.some.injEq, decide_eq_true_eq]
        exact fun he2 => h he2.symm
      rw [hnil]
      have := hCd e he
      simp only [txsOfDistributor] at this
      simpa [txSum] using this
  · intro s hs
    rw [hstores] at hs
    have hsum : txSum (txsOfStore db₂ s.id)
        = txSum ((db.wallet_transactions ++ newTxs).filter
            (ownedByStore s.id)) := by
      simp only [txsOfStore, htxs]
      exact txSum_filter_recompute _ _ _
        (fun us t => ownedByStore_applyUpds s.id us t)
    rw [hsum, filter_append_txs, txSum_append]
    have hnil : newTxs.filter (ownedByStore s.id) = [] := by
      apply List.filter_eq_nil_iff.mpr
      intro t ht
      have := (hnew t ht).2
      simp [ownedByStore, this]
    rw [hnil]
    have := hCs s hs
    simp only [txsOfStore] at this
    simpa [txSum] using this

/-- Mirror of `consistent_recompute_dist` for a store account. -/
theorem consistent_recompute_store (db db₂ : DB) (sid : String)
    (newTxs : List Tx) (hC : Consistent db)
    (hnew : ∀ t ∈ newTxs, t.store_id = some sid ∧ t.distributor_id = none)
    (hstores : db₂.stores = db.stores.map
      (fun e => if e.id = sid then
        { e with wallet_balance :=
            (recomputeTxs (ownedByStore sid)
              (db.wallet_transactions ++ newTxs)).2.1 }
        else e))
    (hdists : db₂.distributors = db.distributors)
    (htxs : db₂.wallet_transactions =
      (recomputeTxs (ownedByStore sid)
        (db.wallet_transactions ++ newTxs)).1) :
    Consistent db₂ := by
  obtain ⟨hCd, hCs⟩ := hC
  constructor
  · intro e he
    rw [hdists] at he
    have hsum : txSum (txsOfDistributor db₂ e.id)
        = txSum ((db.wallet_transactions ++ newTxs).filter
            (ownedByDistributor e.id)) := by
      simp only [txsOfDistributor, htxs]
      exact txSum_filter_recompute _ _ _
        (fun us t => ownedByDistributor_applyUpds e.id us t)
    rw [hsum, filter_append_txs, txSum_append]
    have hnil : newTxs.filter (ownedByDistributor e.id) = [] := by
      apply List.filter_eq_nil_iff.mpr
      intro t ht
      have ht1 := (hnew t ht).2
      simp [ownedByDistributor, ht1]
    rw [hnil]
    have := hCd e he
    simp only [txsOfDistributor] at this
    simpa [txSum] using this
  · intro e' he'
    rw [hstores, List.mem_map] at he'
    obtain ⟨e, he, rfl⟩ := he'
    have hidp : (if e.id = sid then
        ({ e with wallet_balance :=
            (recomputeTxs (ownedByStore sid)
              (db.wallet_transactions ++ newTxs)).2.1 } : Store)
        else e).id = e.id := by
      by_cases h : e.id = sid <;> simp [h]
    rw [hidp]
    have hsum : txSum (txsOfStore db₂ e.id)
        = txSum ((db.wallet_transactions ++ newTxs).filter
            (ownedByStore e.id)) := by
      simp only [txsOfStore, htxs]
      exact txSum_filter_recompute _ _ _
        (fun us t => ownedByStore_applyUpds e.id us t)
    by_cases h : e.id = sid
    · rw [if_pos h]
      rw [hsum, h, recompute_final]
    · rw [if_neg h]
      rw [hsum, filter_append_txs, txSum_append]
      have hnil : newTxs.filter (ownedByStore e.id) = [] := by
        apply List.filter_eq_nil_iff.mpr
        intro t ht
        have ht1 := (hnew t ht).1
        simp only [ownedByStore, ht1]
        simp only [Option.some.injEq, decide_eq_true_eq]
        exact fun he2 => h he2.symm
      rw [hnil]
      have := hCs e he
      simp only [txsOfStore] at this
      simpa [txSum] using this

/-- Consistency is preserved by the O(1) append pattern used by the
order and return handlers: read the distributor, set its cached balance
to the read value plus a delta, append one transaction carrying exactly
that delta for this distributor. -/
theorem consistent_o1_dist (db db₂ : DB) (did : String) (d : Distributor)
    (c : ℚ) (tx : Tx) (hC : Consistent db)
    (hd : findDistributor db did = some d)
    (hdists : db₂.distributors = db.distributors.map
      (fun e => if e.id = did then
        { e with wallet_balance := d.wallet_balance + c } else e))
    (hstores : db₂.stores = db.stores)
    (htxs : db₂.wallet_transactions = db.wallet_transactions ++ [tx])
    (htx1 : tx.distributor_id = some did)
    (htx2 : tx.store_id = none)
    (htx3 : tx.amount = c) :
    Consistent db₂ := by
  obtain ⟨hCd, hCs⟩ := hC
  have hdmem : d ∈ db.distributors := List.mem_of_find?_eq_some hd
  have hdid : d.id = did := by
    have := List.find?_some hd
    simpa using this
  have hdw : d.wallet_balance = txSum (txsOfDistributor db did) := by
    rw [← hdid]
    exact hCd d hdmem
  constructor
  · intro e' he'
    rw [hdists, List.mem_map] at he'
    obtain ⟨e, he, rfl⟩ := he'
    have hidp : (if e.id = did then
        ({ e with wallet_balance := d.wallet_balance + c } : Distributor)
        else e).id = e.id := by
      by_cases h : e.id = did <;> simp [h]
    rw [hidp]
    have hsplit : txsOfDistributor db₂ e.id
        = txsOfDistributor db e.id ++ [tx].filter (ownedByDistributor e.id) := by
      simp only [txsOfDistributor, htxs]
      exact filter_append_txs _ _ _
    by_cases h : e.id = did
    · rw [if_pos h]
      have htxin : [tx].filter (ownedByDistributor e.id) = [tx] := by
        simp [ownedByDistributor, htx1, h]
      rw [hsplit, htxin, txSum_append, h, ← hdw]
      simp [txSum, htx3]
    · rw [if_neg h]
      have htxout : [tx].filter (ownedByDistributor e.id) = [] := by
        simp only [List.filter, ownedByDistributor, htx1]
        simp only [Option.some.injEq, decide_eq_true_eq]
        rw [decide_eq_false (fun he2 => h he2.symm)]
      rw [hsplit, htxout, List.append_nil]
      exact hCd e he
  · intro s hs
    rw [hstores] at hs
    have hsplit : txsOfStore db₂ s.id
        = txsOfStore db s.id ++ [tx].filter (ownedByStore s.id) := by
      simp only [txsOfStore, htxs]
      exact filter_append_txs _ _ _
    have htxout : [tx].filter (ownedByStore s.id) = [] := by
      simp [ownedByStore, htx2]
    rw [hsplit, htxout, List.append_nil]
    exact hCs s hs

-- ### Characterizations of the wallet handlers' successful branches

/-- Successful distributor recharge, as insert-then-recompute-then-set. -/
theorem recharge_dist_eq (db : DB) (r : WalletRecharge) (did : String)
    (d : Distributor) (h1 : r.distributorId = some did)
    (h2 : findDistributor db did = some d) :
    recharge_wallet db r =
      (recomputeStateD db did [rechargeTxD db did r] 1,
       .ok "Wallet recharged successfully") := by
  simp only [recharge_wallet, h1, h2, recomputeStateD, rechargeTxD]

/-- Successful store recharge. -/
theorem recharge_store_eq (db : DB) (r : WalletRecharge) (sid : String)
    (s : Store) (h1 : r.distributorId = none) (h1b : r.storeId = some sid)
    (h2 : findStore db sid = some s) :
    recharge_wallet db r =
      (recomputeStateS db sid [rechargeTxS db sid r] 1,
       .ok "Wallet recharged successfully") := by
  simp only [recharge_wallet, h1, h1b, h2, recomputeStateS, rechargeTxS]

/-- Successful distributor journal voucher. -/
theorem jv_dist_eq (db : DB) (j : JournalVoucher) (did : String)
    (d : Distributor) (h1 : j.distributorId = some did)
    (h2 : findDistributor db did = some d) :
    record_journal_voucher db j =
      (recomputeStateD db did [jvTxD db did j] 1,
       .ok "Journal voucher recorded successfully") := by
  simp only [record_journal_voucher, h1, h2, recomputeStateD, jvTxD]

/-- Successful store journal voucher. -/
theorem jv_store_eq (db : DB) (j : JournalVoucher) (sid : String)
    (s : Store) (h1 : j.distributorId = none) (h1b : j.storeId = some sid)
    (h2 : findStore db sid = some s) :
    record_journal_voucher db j =
      (recomputeStateS db sid [jvTxS db sid j] 1,
       .ok "Journal voucher recorded successfully") := by
  simp only [record_journal_voucher, h1, h1b, h2, recomputeStateS, jvTxS]

/-- Successful distributor recalculate. -/
theorem recalc_dist_eq (db : DB) (did : String) (d : Distributor)
    (h2 : findDistributor db did = some d) :
    recalculate_wallet_balances db "distributor" did =
      (recomputeStateD db did [] 0,
       .ok { final_balance :=
               (recomputeTxs (ownedByDistributor did)
                 db.wallet_transactions).2.1,
             transactions_updated :=
               (recomputeTxs (ownedByDistributor did)
                 db.wallet_transactions).2.2 }) := by
  simp only [recalculate_wallet_balances, if_pos, h2, recomputeStateD,
    List.append_nil]
  norm_num

/-- Successful store recalculate. -/
theorem recalc_store_eq (db : DB) (sid : String) (s : Store)
    (h2 : findStore db sid = some s) :
    recalculate_wallet_balances db "store" sid =
      (recomputeStateS db sid [] 0,
       .ok { final_balance :=
               (recomputeTxs (ownedByStore sid)
                 db.wallet_transactions).2.1,
             transactions_updated :=
               (recomputeTxs (ownedByStore sid)
                 db.wallet_transactions).2.2 }) := by
  simp only [recalculate_wallet_balances, h2, recomputeStateS,
    List.append_nil]
  norm_num
  exact fun hcontra => absurd hcontra (by decide)

-- ### Invariant preservation

/-- Consistency only depends on the accounts and the transaction table. -/
theorem consistent_congr (db db₂ : DB)
    (hd : db₂.distributors = db.distributors)
    (hs : db₂.stores = db.stores)
    (ht : db₂.wallet_transactions = db.wallet_transactions)
    (h : Consistent db) : Consistent db₂ := by
  obtain ⟨hCd, hCs⟩ := h
  constructor
  · intro e he
    rw [hd] at he
    simpa only [txsOfDistributor, ht] using hCd e he
  · intro s hs2
    rw [hs] at hs2
    simpa only [txsOfStore, ht] using hCs s hs2

/-- Well-formedness only depends on the table and the counter. -/
theorem wf_congr (db db₂ : DB)
    (ht : db₂.wallet_transactions = db.wallet_transactions)
    (hn : db₂.nextTxId = db.nextTxId)
    (h : WellFormed db) : WellFormed db₂ :=
  wf_same_ids db db₂ h (by rw [ht]) hn

/-- The recompute-and-set pattern with one appended fresh row keeps the
invariant (distributor side). -/
theorem ledgerInv_recomputeStateD_append (db : DB) (did : String) (tx : Tx)
    (h : LedgerInv db) (htx1 : tx.distributor_id = some did)
    (htx2 : tx.store_id = none) (hid : tx.id = db.nextTxId) :
    LedgerInv (recomputeStateD db did [tx] 1) := by
  obtain ⟨hC, hW⟩ := h
  constructor
  · refine consistent_recompute_dist db _ did [tx] hC ?_ rfl rfl rfl
    intro t ht
    rw [List.mem_singleton] at ht
    subst ht
    exact ⟨htx1, htx2⟩
  · refine wf_append_ids db _ hW ?_ rfl
    show ((recomputeTxs (ownedByDistributor did)
      (db.wallet_transactions ++ [tx])).1).map Tx.id = _
    rw [ids_recompute, List.map_append, List.map_singleton, hid]

/-- The recompute-and-set pattern with no appended row keeps the
invariant (distributor side). -/
theorem ledgerInv_recomputeStateD_plain (db : DB) (did : String)
    (h : LedgerInv db) : LedgerInv (recomputeStateD db did [] 0) := by
  obtain ⟨hC, hW⟩ := h
  constructor
  · exact consistent_recompute_dist db _ did [] hC (by simp) rfl rfl rfl
  · refine wf_same_ids db _ hW ?_ rfl
    show ((recomputeTxs (ownedByDistributor did)
      (db.wallet_transactions ++ [])).1).map Tx.id = _
    rw [ids_recompute, List.append_nil]

/-- Store-side mirror, appended row. -/
theorem ledgerInv_recomputeStateS_append (db : DB) (sid : String) (tx : Tx)
    (h : LedgerInv db) (htx1 : tx.store_id = some sid)
    (htx2 : tx.distributor_id = none) (hid : tx.id = db.nextTxId) :
    LedgerInv (recomputeStateS db sid [tx] 1) := by
  obtain ⟨hC, hW⟩ := h
  constructor
  · refine consistent_recompute_store db _ sid [tx] hC ?_ rfl rfl rfl
    intro t ht
    rw [List.mem_singleton] at ht
    subst ht
    exact ⟨htx1, htx2⟩
  · refine wf_append_ids db _ hW ?_ rfl
    show ((recomputeTxs (ownedByStore sid)
      (db.wallet_transactions ++ [tx])).1).map Tx.id = _
    rw [ids_recompute, List.map_append, List.map_singleton, hid]

/-- Store-side mirror, no appended row. -/
theorem ledgerInv_recomputeStateS_plain (db : DB) (sid : String)
    (h : LedgerInv db) : LedgerInv (recomputeStateS db sid [] 0) := by
  obtain ⟨hC, hW⟩ := h
  constructor
  · exact consistent_recompute_store db _ sid [] hC (by simp) rfl rfl rfl
  · refine wf_same_ids db _ hW ?_ rfl
    show ((recomputeTxs (ownedByStore sid)
      (db.wallet_transactions ++ [])).1).map Tx.id = _
    rw [ids_recompute, List.append_nil]

/-- Wallet recharge keeps the invariant. -/
theorem ledgerInv_recharge (db : DB) (r : WalletRecharge)
    (h : LedgerInv db) : LedgerInv (recharge_wallet db r).1 := by
  cases hdid : r.distributorId with
  | some did =>
    cases hfd : findDistributor db did with
    | none => simpa only [recharge_wallet, hdid, hfd] using h
    | some d =>
      rw [recharge_dist_eq db r did d hdid hfd]
      exact ledgerInv_recomputeStateD_append db did _ h rfl rfl rfl
  | none =>
    cases hsid : r.storeId with
    | none => simpa only [recharge_wallet, hdid, hsid] using h
    | some sid =>
      cases hfs : findStore db sid with
      | none => simpa only [recharge_wallet, hdid, hsid, hfs] using h
      | some s =>
        rw [recharge_store_eq db r sid s hdid hsid hfs]
        exact ledgerInv_recomputeStateS_append db sid _ h rfl rfl rfl

/-- Journal voucher keeps the invariant. -/
theorem ledgerInv_jv (db : DB) (j : JournalVoucher)
    (h : LedgerInv db) : LedgerInv (record_journal_voucher db j).1 := by
  cases hdid : j.distributorId with
  | some did =>
    cases hfd : findDistributor db did with
    | none => simpa only [record_journal_voucher, hdid, hfd] using h
    | some d =>
      rw [jv_dist_eq db j did d hdid hfd]
      exact ledgerInv_recomputeStateD_append db did _ h rfl rfl rfl
  | none =>
    cases hsid : j.storeId with
    | none => simpa only [record_journal_voucher, hdid, hsid] using h
    | some sid =>
      cases hfs : findStore db sid with
      | none => simpa only [record_journal_voucher, hdid, hsid, hfs] using h
      | some s =>
        rw [jv_store_eq db j sid s hdid hsid hfs]
        exact ledgerInv_recomputeStateS_append db sid _ h rfl rfl rfl

/-- Recalculate keeps the invariant. -/
theorem ledgerInv_recalc (db : DB) (at_ aid : String)
    (h : LedgerInv db) : LedgerInv (recalculate_wallet_balances db at_ aid).1 := by
  by_cases hat : at_ = "distributor"
  · subst hat
    cases hfd : findDistributor db aid with
    | none => simpa only [recalculate_wallet_balances, if_pos, hfd] using h
    | some d =>
      rw [recalc_dist_eq db aid d hfd]
      exact ledgerInv_recomputeStateD_plain db aid h
  · by_cases hat2 : at_ = "store"
    · subst hat2
      cases hfs : findStore db aid with
      | none =>
        have : (recalculate_wallet_balances db "store" aid).1 = db := by
          simp only [recalculate_wallet_balances, hfs]
          rw [if_neg (by decide), if_pos trivial]
        rw [this]
        exact h
      | some s =>
        rw [recalc_store_eq db aid s hfs]
        exact ledgerInv_recomputeStateS_plain db aid h
    · have : (recalculate_wallet_balances db at_ aid).1 = db := by
        simp only [recalculate_wallet_balances, if_neg hat, if_neg hat2]
      rw [this]
      exact h

/-- Order placement keeps the invariant. -/
theorem ledgerInv_create_order (db : DB) (did : String) (total : ℚ)
    (now : Nat) (h : LedgerInv db) :
    LedgerInv (create_order db did total now).1 := by
  obtain ⟨hC, hW⟩ := h
  cases hfd : findDistributor db did with
  | none => simpa only [create_order, hfd] using ⟨hC, hW⟩
  | some d =>
    simp only [create_order, hfd]
    constructor
    · refine consistent_o1_dist db _ did d (-total) _ hC hfd ?_ rfl rfl rfl rfl rfl
      show _ = db.distributors.map _
      simp only [setDistributorBalance, sub_eq_add_neg]
    · refine wf_append_ids db _ hW ?_ rfl
      show (db.wallet_transactions ++ [_]).map Tx.id = _
      rw [List.map_append, List.map_singleton]
      simp [setDistributorBalance]

/-- Order edit keeps the invariant. -/
theorem ledgerInv_update_order_items (db : DB) (oid : String)
    (newTotal : ℚ) (now : Nat) (h : LedgerInv db) :
    LedgerInv (update_order_items db oid newTotal now).1 := by
  obtain ⟨hC, hW⟩ := h
  cases hfo : findOrder db oid with
  | none => simpa only [update_order_items, hfo] using ⟨hC, hW⟩
  | some ord =>
    cases hfd : findDistributor db ord.distributor_id with
    | none => simpa only [update_order_items, hfo, hfd] using ⟨hC, hW⟩
    | some d =>
      simp only [update_order_items, hfo, hfd]
      by_cases hδ : newTotal - ord.total_amount ≠ 0
      · rw [if_pos hδ]
        constructor
        · refine consistent_o1_dist db _ ord.distributor_id d
            (-(newTotal - ord.total_amount)) _ hC hfd ?_ rfl rfl rfl rfl rfl
          show _ = db.distributors.map _
          simp only [setDistributorBalance, sub_eq_add_neg]
        · refine wf_append_ids db _ hW ?_ rfl
          show (db.wallet_transactions ++ [_]).map Tx.id = _
          rw [List.map_append, List.map_singleton]
          simp [setDistributorBalance]
      · rw [if_neg hδ]
        exact ⟨consistent_congr db _ rfl rfl rfl hC, wf_congr db _ rfl rfl hW⟩

/-- Order cancellation (with refund when PENDING) keeps the invariant. -/
theorem ledgerInv_delete_order (db : DB) (oid : String) (now : Nat)
    (h : LedgerInv db) : LedgerInv (delete_order db oid now).1 := by
  obtain ⟨hC, hW⟩ := h
  cases hfo : findOrder db oid with
  | none => simpa only [delete_order, hfo] using ⟨hC, hW⟩
  | some ord =>
    by_cases hps : ord.status = OrderStatus.PENDING
    · cases hfd : findDistributor db ord.distributor_id with
      | none => simpa only [delete_order, hfo, if_pos hps, hfd] using ⟨hC, hW⟩
      | some d =>
        simp only [delete_order, hfo, if_pos hps, hfd]
        constructor
        · exact consistent_o1_dist db _ ord.distributor_id d
            ord.total_amount _ hC hfd rfl rfl rfl rfl rfl rfl
        · refine wf_append_ids db _ hW ?_ rfl
          show (db.wallet_transactions ++ [_]).map Tx.id = _
          rw [List.map_append, List.map_singleton]
          simp [setDistributorBalance]
    · simp only [delete_order, hfo, if_neg hps]
      exact ⟨consistent_congr db _ rfl rfl rfl hC, wf_congr db _ rfl rfl hW⟩

/-- Return approval keeps the invariant. -/
theorem ledgerInv_approve_return (db : DB) (rid : String) (credit : ℚ)
    (now : Nat) (h : LedgerInv db) :
    LedgerInv (approve_return db rid credit now).1 := by
  obtain ⟨hC, hW⟩ := h
  cases hfr : findReturn db rid with
  | none => simpa only [approve_return, hfr] using ⟨hC, hW⟩
  | some ret =>
    by_cases hst : ret.status ≠ ReturnStatus.PENDING
    · simpa only [approve_return, hfr, if_pos hst] using ⟨hC, hW⟩
    · cases hfd : findDistributor db ret.distributor_id with
      | none => simpa only [approve_return, hfr, if_neg hst, hfd] using ⟨hC, hW⟩
      | some d =>
        simp only [approve_return, hfr, if_neg hst, hfd]
        constructor
        · exact consistent_o1_dist db _ ret.distributor_id d
            credit _ hC hfd rfl rfl rfl rfl rfl rfl
        · refine wf_append_ids db _ hW ?_ rfl
          show (db.wallet_transactions ++ [_]).map Tx.id = _
          rw [List.map_append, List.map_singleton]
          simp [setDistributorBalance]

/-- Every ledger-mutating operation keeps the invariant. -/
theorem ledgerInv_applyOp (db : DB) (op : LedgerOp) (h : LedgerInv db) :
    LedgerInv (applyOp db op) := by
  cases op with
  | recharge r => exact ledgerInv_recharge db r h
  | journalVoucher j => exact ledgerInv_jv db j h
  | placeOrder did total now => exact ledgerInv_create_order db did total now h
  | editOrder oid newTotal now =>
    exact ledgerInv_update_order_items db oid newTotal now h
  | cancelOrder oid now => exact ledgerInv_delete_order db oid now h
  | approveReturn rid credit now =>
    exact ledgerInv_approve_return db rid credit now h
  | recalc at_ aid => exact ledgerInv_recalc db at_ aid h

/-- The invariant survives any sequence of ledger-mutating operations. -/
theorem ledgerInv_applyOps (db : DB) (ops : List LedgerOp)
    (h : LedgerInv db) : LedgerInv (applyOps db ops) := by
  induction ops generalizing db with
  | nil => exact h
  | cons op ops ih => exact ih (applyOp db op) (ledgerInv_applyOp db op h)

/-- The balances installed on the sorted rows: the last row receives
the loop's final accumulator. -/
theorem zip_set_getLast (S : List Tx) (r : ℚ) (h : S ≠ []) :
    ((List.zipWith (fun t b => { t with balance_after := b }) S
      (runningList r S)).getLast?).map Tx.balance_after
      = some (finalRunning r S) := by
  induction S generalizing r with
  | nil => exact absurd rfl h
  | cons t ts ih =>
    cases ts with
    | nil => rfl
    | cons u ts2 =>
      have h1 : List.zipWith (fun t b => { t with balance_after := b })
          (t :: u :: ts2) (runningList r (t :: u :: ts2))
          = { t with balance_after := r + t.amount } ::
            List.zipWith (fun t b => { t with balance_after := b })
              (u :: ts2) (runningList (r + t.amount) (u :: ts2)) := rfl
      rw [h1]
      have h2 := ih (r + t.amount) (List.cons_ne_nil u ts2)
      cases hz : List.zipWith (fun t b => { t with balance_after := b })
          (u :: ts2) (runningList (r + t.amount) (u :: ts2)) with
      | nil =>
        rw [hz] at h2
        simp at h2
      | cons w ws =>
        rw [hz] at h2
        rw [List.getLast?_cons_cons]
        exact h2

/-- The recompute loop's update pairs only read the id and amount
columns, which `applyUpds` preserves. -/
theorem runningUpdates_map_applyUpds (us : List (Nat × ℚ)) (r : ℚ)
    (l : List Tx) :
    runningUpdates r (l.map (applyUpds us)) = runningUpdates r l := by
  induction l generalizing r with
  | nil => rfl
  | cons t ts ih =>
    simp only [List.map_cons, runningUpdates,
      (applyUpds_fields us t).1, (applyUpds_fields us t).2.2.1]
    rw [ih (r + t.amount)]

/-- Lookup of the target distributor after a recompute-and-set. -/
theorem findDistributor_recomputeStateD (db : DB) (did : String)
    (newTxs : List Tx) (bump : Nat) :
    findDistributor (recomputeStateD db did newTxs bump) did =
      (findDistributor db did).map
        (fun d => { d with wallet_balance :=
          (recomputeTxs (ownedByDistributor did)
            (db.wallet_transactions ++ newTxs)).2.1 }) := by
  simp only [recomputeStateD, setDistributorBalance, findDistributor]
  exact find?_set_balance _ _ _

/-- Lookup of the target store after a recompute-and-set. -/
theorem findStore_recomputeStateS (db : DB) (sid : String)
    (newTxs : List Tx) (bump : Nat) :
    findStore (recomputeStateS db sid newTxs bump) sid =
      (findStore db sid).map
        (fun s => { s with wallet_balance :=
          (recomputeTxs (ownedByStore sid)
            (db.wallet_transactions ++ newTxs)).2.1 }) := by
  simp only [recomputeStateS, setStoreBalance, findStore]
  exact find?_set_balance_store _ _ _

/-- Running the recompute a second time issues the same updates and
leaves the table unchanged: the recompute is idempotent on the
transaction table, and reports the same final balance and count. -/
theorem recompute_idem (owned : Tx → Bool) (table : List Tx)
    (hown : ∀ us t, owned (applyUpds us t) = owned t) :
    recomputeTxs owned ((recomputeTxs owned table).1) =
      ((recomputeTxs owned table).1, (recomputeTxs owned table).2) := by
  have hfst := recompute_fst owned table
  set us := runningUpdates 0 (sortByDate (table.filter owned)) with hus
  have hfilter : ((recomputeTxs owned table).1).filter owned
      = (table.filter owned).map (applyUpds us) := by
    rw [hfst]
    exact filter_map_pres owned _ (hown us) table
  have hsort : sortByDate (((recomputeTxs owned table).1).filter owned)
      = (sortByDate (table.filter owned)).map (applyUpds us) := by
    rw [hfilter]
    exact sortByDate_map _ (fun t => (applyUpds_fields us t).2.1) _
  have hus2 : runningUpdates 0
      (sortByDate (((recomputeTxs owned table).1).filter owned)) = us := by
    rw [hsort, runningUpdates_map_applyUpds]
  have htable : applyBalanceUpdates us ((recomputeTxs owned table).1)
      = (recomputeTxs owned table).1 := by
    rw [hfst, applyBalanceUpdates_eq_map, List.map_map]
    apply List.map_congr_left
    intro t _
    exact applyUpds_idem us t
  have hfinal : finalRunning 0
      (sortByDate (((recomputeTxs owned table).1).filter owned))
      = finalRunning 0 (sortByDate (table.filter owned)) := by
    rw [hsort, finalRunning_eq, finalRunning_eq, txSum_map_applyUpds]
  have hlen : (sortByDate (((recomputeTxs owned table).1).filter owned)).length
      = (sortByDate (table.filter owned)).length := by
    rw [hsort, List.length_map]
  show (applyBalanceUpdates (runningUpdates 0 _) _, _, _) = _
  rw [hus2, htable, hfinal, hlen]
  rfl

/-- The transaction table of a recompute-and-set state (distributor). -/
theorem recomputeStateD_txs (db : DB) (did : String) (newTxs : List Tx)
    (bump : Nat) :
    (recomputeStateD db did newTxs bump).wallet_transactions =
      (recomputeTxs (ownedByDistributor did)
        (db.wallet_transactions ++ newTxs)).1 := rfl

/-- The transaction table of a recompute-and-set state (store). -/
theorem recomputeStateS_txs (db : DB) (sid : String) (newTxs : List Tx)
    (bump : Nat) :
    (recomputeStateS db sid newTxs bump).wallet_transactions =
      (recomputeTxs (ownedByStore sid)
        (db.wallet_transactions ++ newTxs)).1 := rfl

/-- C4: calling recalculate twice consecutively with no intervening
appends returns the same `final_balance` and `transactions_updated`,
and leaves every transaction row (hence every `balance_after`)
identical to the first call's result.  Holds unconditionally, error
branches included. -/
theorem recalculate_idempotent (db : DB) (at_ aid : String) :
    (recalculate_wallet_balances
        (recalculate_wallet_balances db at_ aid).1 at_ aid).2
      = (recalculate_wallet_balances db at_ aid).2 ∧
    (recalculate_wallet_balances
        (recalculate_wallet_balances db at_ aid).1 at_ aid).1.wallet_transactions
      = (recalculate_wallet_balances db at_ aid).1.wallet_transactions := by
  by_cases hat : at_ = "distributor"
  · subst hat
    cases hfd : findDistributor db aid with
    | none =>
      have h1 : recalculate_wallet_balances db "distributor" aid
          = (db, .error ⟨500, "404: Distributor not found"⟩) := by
        simp only [recalculate_wallet_balances, if_pos, hfd]
      rw [h1]
      show (recalculate_wallet_balances db "distributor" aid).2 = _ ∧
        (recalculate_wallet_balances db "distributor" aid).1.wallet_transactions = _
      rw [h1]
      exact ⟨rfl, rfl⟩
    | some d =>
      have h1 := recalc_dist_eq db aid d hfd
      have hfd2 : findDistributor (recomputeStateD db aid [] 0) aid
          = some { d with wallet_balance :=
              (recomputeTxs (ownedByDistributor aid)
                (db.wallet_transactions ++ [])).2.1 } := by
        rw [findDistributor_recomputeStateD, hfd]
        rfl
      have h2 := recalc_dist_eq (recomputeStateD db aid [] 0) aid _ hfd2
      have htx1 : (recomputeStateD db aid [] 0).wallet_transactions
          = (recomputeTxs (ownedByDistributor aid) db.wallet_transactions).1 := by
        rw [recomputeStateD_txs, List.append_nil]
      have hidem := recompute_idem (ownedByDistributor aid)
        db.wallet_transactions (fun us t => ownedByDistributor_applyUpds aid us t)
      rw [h1]
      show (recalculate_wallet_balances (recomputeStateD db aid [] 0)
          "distributor" aid).2 = _ ∧
        (recalculate_wallet_balances (recomputeStateD db aid [] 0)
          "distributor" aid).1.wallet_transactions = _
      rw [h2]
      constructor
      · show Except.ok _ = Except.ok _
        rw [htx1, hidem]
      · rw [recomputeStateD_txs, List.append_nil, htx1, hidem]
  · by_cases hat2 : at_ = "store"
    · subst hat2
      cases hfs : findStore db aid with
      | none =>
        have h1 : recalculate_wallet_balances db "store" aid
            = (db, .error ⟨500, "404: Store not found"⟩) := by
          simp only [recalculate_wallet_balances, hfs]
          rw [if_neg (by decide), if_pos trivial]
        rw [h1]
        show (recalculate_wallet_balances db "store" aid).2 = _ ∧
          (recalculate_wallet_balances db "store" aid).1.wallet_transactions = _
        rw [h1]
        exact ⟨rfl, rfl⟩
      | some s =>
        have h1 := recalc_store_eq db aid s hfs
        have hfs2 : findStore (recomputeStateS db aid [] 0) aid
            = some { s with wallet_balance :=
                (recomputeTxs (ownedByStore aid)
                  (db.wallet_transactions ++ [])).2.1 } := by
          rw [findStore_recomputeStateS, hfs]
          rfl
        have h2 := recalc_store_eq (recomputeStateS db aid [] 0) aid _ hfs2
        have htx1 : (recomputeStateS db aid [] 0).wallet_transactions
            = (recomputeTxs (ownedByStore aid) db.wallet_transactions).1 := by
          rw [recomputeStateS_txs, List.append_nil]
        have hidem := recompute_idem (ownedByStore aid)
          db.wallet_transactions (fun us t => ownedByStore_applyUpds aid us t)
        rw [h1]
        show (recalculate_wallet_balances (recomputeStateS db aid [] 0)
            "store" aid).2 = _ ∧
          (recalculate_wallet_balances (recomputeStateS db aid [] 0)
            "store" aid).1.wallet_transactions = _
        rw [h2]
        constructor
        · show Except.ok _ = Except.ok _
          rw [htx1, hidem]
        · rw [recomputeStateS_txs, List.append_nil, htx1, hidem]
    · have h1 : recalculate_wallet_balances db at_ aid
          = (db, .error ⟨500, "400: account_type must be distributor or store"⟩) := by
        simp only [recalculate_wallet_balances, if_neg hat, if_neg hat2]
      rw [h1]
      show (recalculate_wallet_balances db at_ aid).2 = _ ∧
        (recalculate_wallet_balances db at_ aid).1.wallet_transactions = _
      rw [h1]
      exact ⟨rfl, rfl⟩

/-- Appending a row keyed with the fresh id keeps the id column Nodup. -/
theorem nodup_ids_append (db : DB) (tx : Tx) (hW : WellFormed db)
    (hid : tx.id = db.nextTxId) :
    ((db.wallet_transactions ++ [tx]).map Tx.id).Nodup := by
  obtain ⟨hnd, hlt⟩ := hW
  rw [List.map_append, List.map_singleton]
  refine List.Nodup.append hnd (List.nodup_singleton _) ?_
  intro i hi hj
  rw [List.mem_singleton] at hj
  have h1 := hlt i hi
  rw [hj, hid] at h1
  exact absurd h1 (lt_irrefl _)

/-- Nonempty variant of `runningList_getLast`. -/
theorem runningList_getLast_ne (l : List Tx) (r : ℚ) (h : l ≠ []) :
    (runningList r l).getLast? = some (finalRunning r l) := by
  cases l with
  | nil => exact absurd rfl h
  | cons t ts => exact runningList_getLast t ts r

/-- The account slice of the insert-then-recompute state, in date
order. -/
theorem sorted_slice_recomputeStateD (db : DB) (did : String) (tx : Tx)
    (hW : WellFormed db) (hid : tx.id = db.nextTxId) :
    sortByDate (txsOfDistributor (recomputeStateD db did [tx] 1) did)
      = List.zipWith (fun t b => { t with balance_after := b })
          (sortByDate ((db.wallet_transactions ++ [tx]).filter
            (ownedByDistributor did)))
          (runningList 0 (sortByDate ((db.wallet_transactions ++ [tx]).filter
            (ownedByDistributor did)))) := by
  have h1 : txsOfDistributor (recomputeStateD db did [tx] 1) did
      = ((recomputeTxs (ownedByDistributor did)
          (db.wallet_transactions ++ [tx])).1).filter (ownedByDistributor did) := by
    simp only [txsOfDistributor, recomputeStateD_txs]
  rw [h1]
  exact recompute_sorted_filter (ownedByDistributor did) _
    (nodup_ids_append db tx hW hid)
    (fun us t => ownedByDistributor_applyUpds did us t)

/-- After the insert-then-recompute flow, the chronologically last row
of the account carries the recompute's final balance. -/
theorem lastBalance_recomputeStateD (db : DB) (did : String) (tx : Tx)
    (hW : WellFormed db) (hid : tx.id = db.nextTxId)
    (hown : ownedByDistributor did tx = true) :
    ((sortByDate (txsOfDistributor (recomputeStateD db did [tx] 1) did)).getLast?).map
        Tx.balance_after
      = some ((recomputeTxs (ownedByDistributor did)
          (db.wallet_transactions ++ [tx])).2.1) := by
  rw [sorted_slice_recomputeStateD db did tx hW hid]
  have hne : sortByDate ((db.wallet_transactions ++ [tx]).filter
      (ownedByDistributor did)) ≠ [] := by
    have hmem : tx ∈ (db.wallet_transactions ++ [tx]).filter
        (ownedByDistributor did) := by
      rw [List.mem_filter]
      exact ⟨List.mem_append_right _ (List.mem_singleton_self tx), hown⟩
    have : tx ∈ sortByDate ((db.wallet_transactions ++ [tx]).filter
        (ownedByDistributor did)) := by
      rw [sortByDate, List.mem_insertionSort]
      exact hmem
    exact List.ne_nil_of_mem this
  exact zip_set_getLast _ 0 hne

/-- C2: the recharge handler implements the append-then-recompute-all
strategy exactly as the spec words it: after a successful distributor
recharge, the account's rows in date order equal the spec-side
`appendThenRecomputeAll` rows, and the cached balance equals its last
running-sum value. -/
theorem recharge_implements_append_then_recompute_all (db : DB)
    (r : WalletRecharge) (did : String) (d : Distributor)
    (hW : WellFormed db) (h1 : r.distributorId = some did)
    (h2 : findDistributor db did = some d) :
    (recharge_wallet db r).2 = .ok "Wallet recharged successfully" ∧
    sortByDate (txsOfDistributor (recharge_wallet db r).1 did)
      = (appendThenRecomputeAll (txsOfDistributor db did)
          (rechargeTxD db did r)).1 ∧
    (findDistributor (recharge_wallet db r).1 did).map
        Distributor.wallet_balance
      = some (appendThenRecomputeAll (txsOfDistributor db did)
          (rechargeTxD db did r)).2 := by
  have hslice : (db.wallet_transactions ++ [rechargeTxD db did r]).filter
      (ownedByDistributor did)
      = txsOfDistributor db did ++ [rechargeTxD db did r] := by
    rw [filter_append_txs]
    congr 1
    simp [rechargeTxD, ownedByDistributor]
  rw [recharge_dist_eq db r did d h1 h2]
  refine ⟨rfl, ?_, ?_⟩
  · rw [sorted_slice_recomputeStateD db did _ hW rfl, hslice]
    rfl
  · rw [findDistributor_recomputeStateD, h2]
    have hfinal : (recomputeTxs (ownedByDistributor did)
        (db.wallet_transactions ++ [rechargeTxD db did r])).2.1
        = finalRunning 0 (sortByDate (txsOfDistributor db did
            ++ [rechargeTxD db did r])) := by
      show finalRunning 0 (sortByDate ((db.wallet_transactions
        ++ [rechargeTxD db did r]).filter (ownedByDistributor did))) = _
      rw [hslice]
    have hne : sortByDate (txsOfDistributor db did
        ++ [rechargeTxD db did r]) ≠ [] := by
      have : rechargeTxD db did r ∈ sortByDate (txsOfDistributor db did
          ++ [rechargeTxD db did r]) := by
        rw [sortByDate, List.mem_insertionSort]
        exact List.mem_append_right _ (List.mem_singleton_self _)
      exact List.ne_nil_of_mem this
    show some _ = some ((appendThenRecomputeAll _ _).2)
    rw [appendThenRecomputeAll]
    rw [runningList_getLast_ne _ 0 hne]
    rw [hfinal]
    rfl

/-- C3: on existing balances [100, 150, 130], a RECHARGE(+30) dated
before every existing entry shifts each pre-existing `balance_after` by
exactly +30 (the table reads [130, 180, 160, 30], the new row last in
table order carrying 30) and raises the cached balance by exactly 30,
to 160 = 130 + 30. -/
theorem backdated_insert_shifts_forward :
    (recharge_wallet exDB3 exRecharge30).1.wallet_transactions.map
        Tx.balance_after = [130, 180, 160, 30] ∧
    (findDistributor (recharge_wallet exDB3 exRecharge30).1 "D1").map
        Distributor.wallet_balance = some 160 ∧
    (160 : ℚ) = 130 + 30 := by
  refine ⟨?_, ?_, by norm_num⟩ <;>
    norm_num [recharge_wallet, exDB3, exRecharge30, exD1, exTx0, exTx1,
      exTx2, findDistributor, recomputeTxs, sortByDate, txsOfDistributor,
      ownedByDistributor, applyBalanceUpdates, runningUpdates,
      updateTxBalance, finalRunning, setDistributorBalance,
      List.insertionSort, List.orderedInsert, List.find?, List.filter,
      List.foldl]

/-- C1 counterexample: starting consistent, a future-dated
RECHARGE(+100) (date 100) followed by an order placement of 30 at date
50 leaves the cached balance at 70 (the correct sum) while the
chronologically last transaction (the future recharge) still carries
`balance_after` 100: the claimed equality with the last transaction's
snapshot fails. -/
theorem wallet_balance_last_tx_counterexample :
    ((findDistributor (applyOps exFresh exOpsC1) "D1").map
        Distributor.wallet_balance = some 70) ∧
    (((sortByDate (txsOfDistributor (applyOps exFresh exOpsC1)
        "D1")).getLast?).map Tx.balance_after = some 100) ∧
    (70 : ℚ) ≠ 100 := by
  refine ⟨?_, ?_, by norm_num⟩ <;>
    norm_num [applyOps, applyOp, exOpsC1, recharge_wallet, create_order,
      exFresh, findDistributor, recomputeTxs, sortByDate,
      txsOfDistributor, ownedByDistributor, applyBalanceUpdates,
      runningUpdates, updateTxBalance, finalRunning,
      setDistributorBalance, List.insertionSort, List.orderedInsert,
      List.find?, List.filter, List.foldl, List.getLast?]

/-- Witness for C2: the strategy equivalence applied to the concrete
three-transaction state and the backdated recharge. -/
theorem recharge_implements_append_then_recompute_all_witness :
    WellFormed exDB3 ∧
    ((recharge_wallet exDB3 exRecharge30).2
        = .ok "Wallet recharged successfully" ∧
    sortByDate (txsOfDistributor (recharge_wallet exDB3 exRecharge30).1 "D1")
      = (appendThenRecomputeAll (txsOfDistributor exDB3 "D1")
          (rechargeTxD exDB3 "D1" exRecharge30)).1 ∧
    (findDistributor (recharge_wallet exDB3 exRecharge30).1 "D1").map
        Distributor.wallet_balance
      = some (appendThenRecomputeAll (txsOfDistributor exDB3 "D1")
          (rechargeTxD exDB3 "D1" exRecharge30)).2) :=
  ⟨by unfold WellFormed; decide,
   recharge_implements_append_then_recompute_all exDB3 exRecharge30 "D1"
     exD1 (by unfold WellFormed; decide) rfl (by decide)⟩

/-- The last element of the date-sorted list has the maximal date. -/
theorem sorted_getLast_max (L : List Tx) (t : Tx)
    (ht : (sortByDate L).getLast? = some t) :
    ∀ u ∈ L, u.date ≤ t.date := by
  have hsorted : List.Sorted (fun a b : Tx => a.date ≤ b.date)
      (sortByDate L) := List.sorted_insertionSort _ L
  have haux : ∀ (M : List Tx),
      List.Sorted (fun a b : Tx => a.date ≤ b.date) M →
      M.getLast? = some t → ∀ u ∈ M, u.date ≤ t.date := by
    intro M
    induction M with
    | nil => intro _ h u hu; cases hu
    | cons a M' ih =>
      intro hs hlast u hu
      cases M' with
      | nil =>
        rw [List.getLast?_singleton] at hlast
        injection hlast with h1
        subst h1
        rw [List.mem_singleton] at hu
        subst hu
        exact le_refl _
      | cons b M'' =>
        rw [List.getLast?_cons_cons] at hlast
        rw [List.sorted_cons] at hs
        rw [List.mem_cons] at hu
        rcases hu with hu | hu
        · subst hu
          have htmem : t ∈ b :: M'' := List.mem_of_mem_getLast? hlast
          exact hs.1 t htmem
        · exact ih hs.2 hlast u hu
  intro u hu
  exact haux (sortByDate L) hsorted ht u
    ((List.mem_insertionSort _).mpr hu)

/-- The running-balance pass only rewrites `ob`/`cb`. -/
theorem addRunning_mem (b : ℚ) (l : List StatementRow)
    (row' : StatementRow) (h : row' ∈ addRunning b l) :
    ∃ row ∈ l, row'.date = row.date ∧ row'.typ = row.typ := by
  induction l generalizing b with
  | nil => cases h
  | cons row rest ih =>
    rw [addRunning, List.mem_cons] at h
    rcases h with h | h
    · exact ⟨row, List.mem_cons_self row rest, by rw [h], by rw [h]⟩
    · obtain ⟨row0, hmem, hd, ht⟩ := ih _ h
      exact ⟨row0, List.mem_cons_of_mem row hmem, hd, ht⟩

/-- Rows generated from wallet transactions keep the transaction's
date. -/
theorem txStatementRow_date (t : Tx) (row : StatementRow)
    (h : txStatementRow t = some row) : row.date = t.date := by
  cases ht : t.typ <;> simp only [txStatementRow, ht] at h <;>
    cases h <;> rfl

/-- C6: the customer-statement read mutates nothing; its
opening_balance is 0 when the account has no transaction dated strictly
before the range start, and otherwise is the `balance_after` of a
transaction dated strictly before the start whose date is maximal among
those; and every statement row that stems from a wallet transaction
comes from a transaction of this account dated within the range. -/
theorem customer_statement_correct (db : DB) (did : String)
    (d : Distributor) (s e : Nat) (hd : findDistributor db did = some d) :
    (get_customer_statement db did s e).1 = db ∧
    ∃ st, (get_customer_statement db did s e).2 = .ok st ∧
      ((∀ t ∈ txsOfDistributor db did, ¬ t.date < s) →
        st.opening_balance = 0) ∧
      ((∃ t0 ∈ txsOfDistributor db did, t0.date < s) →
        ∃ t ∈ txsOfDistributor db did, t.date < s ∧
          (∀ u ∈ txsOfDistributor db did, u.date < s → u.date ≤ t.date) ∧
          st.opening_balance = t.balance_after) ∧
      (∀ row ∈ st.rows, row.typ ≠ RowType.ORDER →
        ∃ t ∈ txsOfDistributor db did,
          s ≤ t.date ∧ t.date ≤ e ∧ row.date = t.date) := by
  constructor
  · simp only [get_customer_statement, hd]
  · obtain ⟨st, hst⟩ : ∃ st, (get_customer_statement db did s e).2 = .ok st := by
      simp only [get_customer_statement, hd]
      exact ⟨_, rfl⟩
    have hst2 := hst
    simp only [get_customer_statement, hd, Except.ok.injEq] at hst2
    subst hst2
    refine ⟨_, hst, ?_, ?_, ?_⟩
    · intro hnone
      have hfil : (txsOfDistributor db did).filter
          (fun t => t.date < s) = [] := by
        apply List.filter_eq_nil_iff.mpr
        intro t htmem
        simpa using hnone t htmem
      dsimp only
      rw [hfil]
      rfl
    · intro hsome
      obtain ⟨t0, ht0mem, ht0lt⟩ := hsome
      have ht0fil : t0 ∈ (txsOfDistributor db did).filter
          (fun t => t.date < s) := by
        rw [List.mem_filter]
        exact ⟨ht0mem, by simpa using ht0lt⟩
      have hne : sortByDate ((txsOfDistributor db did).filter
          (fun t => t.date < s)) ≠ [] :=
        List.ne_nil_of_mem ((List.mem_insertionSort _).mpr ht0fil)
      obtain ⟨t, ht⟩ : ∃ t, (sortByDate ((txsOfDistributor db did).filter
          (fun t => t.date < s))).getLast? = some t := by
        rw [← Option.isSome_iff_exists, List.getLast?_isSome]
        exact hne
      have htmem : t ∈ (txsOfDistributor db did).filter
          (fun t => t.date < s) :=
        (List.mem_insertionSort _).mp (List.mem_of_mem_getLast? ht)
      rw [List.mem_filter] at htmem
      refine ⟨t, htmem.1, by simpa using htmem.2, ?_, ?_⟩
      · intro u humem hult
        refine sorted_getLast_max _ t ht u ?_
        rw [List.mem_filter]
        exact ⟨humem, by simpa using hult⟩
      · dsimp only
        rw [ht]
    · intro row hrow hnotOrder
      obtain ⟨row0, hrow0mem, hdate, htyp⟩ := addRunning_mem _ _ row hrow
      have hrow0 : row0 ∈ sortRowsByDate
          ((sortOrdersByDate (db.orders.filter
            (fun o => o.distributor_id = did ∧ s ≤ o.date ∧ o.date ≤ e))).map
              orderStatementRow
            ++ (sortByDate ((txsOfDistributor db did).filter
              (fun t => s ≤ t.date ∧ t.date ≤ e))).filterMap
                txStatementRow) := hrow0mem
      rw [sortRowsByDate, List.mem_insertionSort, List.mem_append] at hrow0
      rcases hrow0 with hO | hT
      · exfalso
        rw [List.mem_map] at hO
        obtain ⟨o, _, ho⟩ := hO
        apply hnotOrder
        rw [htyp, ← ho]
        rfl
      · rw [List.mem_filterMap] at hT
        obtain ⟨t, htmem, hrow0t⟩ := hT
        have htfil : t ∈ (txsOfDistributor db did).filter
            (fun t => s ≤ t.date ∧ t.date ≤ e) :=
          (List.mem_insertionSort _).mp htmem
        rw [List.mem_filter] at htfil
        have hbounds : s ≤ t.date ∧ t.date ≤ e := by
          simpa using htfil.2
        refine ⟨t, htfil.1, hbounds.1, hbounds.2, ?_⟩
        rw [hdate, txStatementRow_date t row0 hrow0t]

/-- Witness for C6: the statement theorem applied to the concrete
three-transaction state with range [15, 40]. -/
theorem customer_statement_correct_witness :
    (get_customer_statement exDB3 "D1" 15 40).1 = exDB3 ∧
    ∃ st, (get_customer_statement exDB3 "D1" 15 40).2 = .ok st ∧
      ((∀ t ∈ txsOfDistributor exDB3 "D1", ¬ t.date < 15) →
        st.opening_balance = 0) ∧
      ((∃ t0 ∈ txsOfDistributor exDB3 "D1", t0.date < 15) →
        ∃ t ∈ txsOfDistributor exDB3 "D1", t.date < 15 ∧
          (∀ u ∈ txsOfDistributor exDB3 "D1", u.date < 15 →
            u.date ≤ t.date) ∧
          st.opening_balance = t.balance_after) ∧
      (∀ row ∈ st.rows, row.typ ≠ RowType.ORDER →
        ∃ t ∈ txsOfDistributor exDB3 "D1",
          15 ≤ t.date ∧ t.date ≤ 40 ∧ row.date = t.date) :=
  customer_statement_correct exDB3 "D1" exD1 15 40 (by decide)

/-- C7 counterexample: on a concrete state, when the wallet-balance
update of the debit fails (fault index 1), the handler reports an
error, yet the order row is already inserted while the wallet is
undebited and no ORDER_PAYMENT row exists - exactly the partial state
the claim rules out. -/
theorem order_debit_failure_counterexample :
    (create_order_failAt exDB9 "D1" 100 1 1).2
      = .error ⟨500, "update of distributors failed"⟩ ∧
    (create_order_failAt exDB9 "D1" 100 1 1).1.orders.length = 1 ∧
    (findDistributor (create_order_failAt exDB9 "D1" 100 1 1).1 "D1").map
        Distributor.wallet_balance = some 10 ∧
    (create_order_failAt exDB9 "D1" 100 1 1).1.wallet_transactions = [] := by
  refine ⟨?_, ?_, ?_, ?_⟩ <;>
    norm_num [create_order_failAt, exDB9, findDistributor, List.find?]

/-- C7 (amended): if the wallet debit fails during order placement the
enclosing operation does fail (the error propagates), but the order row
inserted beforehand is not rolled back: the post-state contains the
order while the distributor's balance and the ledger are untouched. -/
theorem order_debit_failure_leaves_order (db : DB) (did : String)
    (total : ℚ) (now : Nat) (d : Distributor)
    (hd : findDistributor db did = some d) :
    (create_order_failAt db did total now 1).2
      = .error ⟨500, "update of distributors failed"⟩ ∧
    ({ id := "ORD-" ++ toString now, distributor_id := did, date := now,
       total_amount := total, status := .PENDING } : OrderRec)
      ∈ (create_order_failAt db did total now 1).1.orders ∧
    (create_order_failAt db did total now 1).1.distributors
      = db.distributors ∧
    (create_order_failAt db did total now 1).1.wallet_transactions
      = db.wallet_transactions := by
  simp only [create_order_failAt, hd]
  norm_num

/-- C8 counterexample: recharging a nonexistent distributor surfaces as
HTTP 500 (the blanket `except Exception` handler wraps the internal
404), not as a 404 not-found error; the state is unchanged. -/
theorem account_not_found_counterexample :
    recharge_wallet exEmpty
        { distributorId := some "DX", storeId := none, amount := 5, date := 1 }
      = (exEmpty, .error ⟨500, "404: Distributor not found"⟩) ∧
    (500 : Nat) ≠ 404 := by
  constructor
  · rfl
  · decide

/-- C8 (amended): every append (recharge, journal voucher) or
recalculate naming a nonexistent account fails - as an HTTP 500 whose
detail wraps the internal 404 raised for the missing account - and
performs no mutation whatsoever (the returned state is the input
state). -/
theorem missing_account_no_mutation (db : DB) (did sid : String)
    (r : WalletRecharge) (j : JournalVoucher)
    (hd : findDistributor db did = none) (hs : findStore db sid = none) :
    (r.distributorId = some did →
      recharge_wallet db r
        = (db, .error ⟨500, "404: Distributor not found"⟩)) ∧
    (r.distributorId = none → r.storeId = some sid →
      recharge_wallet db r = (db, .error ⟨500, "404: Store not found"⟩)) ∧
    (j.distributorId = some did →
      record_journal_voucher db j
        = (db, .error ⟨500, "404: Distributor not found"⟩)) ∧
    (j.distributorId = none → j.storeId = some sid →
      record_journal_voucher db j
        = (db, .error ⟨500, "404: Store not found"⟩)) ∧
    (recalculate_wallet_balances db "distributor" did
      = (db, .error ⟨500, "404: Distributor not found"⟩)) ∧
    (recalculate_wallet_balances db "store" sid
      = (db, .error ⟨500, "404: Store not found"⟩)) := by
  refine ⟨?_, ?_, ?_, ?_, ?_, ?_⟩
  · intro h1
    simp only [recharge_wallet, h1, hd]
  · intro h1 h2
    simp only [recharge_wallet, h1, h2, hs]
  · intro h1
    simp only [record_journal_voucher, h1, hd]
  · intro h1 h2
    simp only [record_journal_voucher, h1, h2, hs]
  · simp only [recalculate_wallet_balances, if_pos, hd]
  · simp only [recalculate_wallet_balances, hs]
    rw [if_neg (by decide), if_pos trivial]

/-- Witness for C8 (amended): applied to the empty state. -/
theorem missing_account_no_mutation_witness :
    findDistributor exEmpty "DX" = none ∧ findStore exEmpty "SX" = none ∧
    ((({ distributorId := some "DX", storeId := none, amount := 5,
         date := 1 } : WalletRecharge).distributorId = some "DX" →
      recharge_wallet exEmpty
          { distributorId := some "DX", storeId := none, amount := 5, date := 1 }
        = (exEmpty, .error ⟨500, "404: Distributor not found"⟩)) ∧
    (({ distributorId := some "DX", storeId := none, amount := 5,
        date := 1 } : WalletRecharge).distributorId = none →
      ({ distributorId := some "DX", storeId := none, amount := 5,
         date := 1 } : WalletRecharge).storeId = some "SX" →
      recharge_wallet exEmpty
          { distributorId := some "DX", storeId := none, amount := 5, date := 1 }
        = (exEmpty, .error ⟨500, "404: Store not found"⟩)) ∧
    (({ distributorId := some "DX", storeId := none, amount := -5,
        date := 2 } : JournalVoucher).distributorId = some "DX" →
      record_journal_voucher exEmpty
          { distributorId := some "DX", storeId := none, amount := -5, date := 2 }
        = (exEmpty, .error ⟨500, "404: Distributor not found"⟩)) ∧
    (({ distributorId := some "DX", storeId := none, amount := -5,
        date := 2 } : JournalVoucher).distributorId = none →
      ({ distributorId := some "DX", storeId := none, amount := -5,
         date := 2 } : JournalVoucher).storeId = some "SX" →
      record_journal_voucher exEmpty
          { distributorId := some "DX", storeId := none, amount := -5, date := 2 }
        = (exEmpty, .error ⟨500, "404: Store not found"⟩)) ∧
    (recalculate_wallet_balances exEmpty "distributor" "DX"
      = (exEmpty, .error ⟨500, "404: Distributor not found"⟩)) ∧
    (recalculate_wallet_balances exEmpty "store" "SX"
      = (exEmpty, .error ⟨500, "404: Store not found"⟩))) :=
  ⟨rfl, rfl,
   missing_account_no_mutation exEmpty "DX" "SX"
     { distributorId := some "DX", storeId := none, amount := 5, date := 1 }
     { distributorId := some "DX", storeId := none, amount := -5, date := 2 }
     rfl rfl⟩

/-- C9 counterexample: a concrete order of 100 against wallet 10 and
credit limit 5 (100 > 10 + 5) is nevertheless placed, and an
ORDER_PAYMENT transaction of -100 is recorded. -/
theorem credit_limit_not_enforced_counterexample :
    (100 : ℚ) > 10 + 5 ∧
    (create_order exDB9 "D1" 100 7).2
      = .ok { id := "ORD-" ++ toString 7, distributor_id := "D1", date := 7,
              total_amount := 100, status := .PENDING } ∧
    (create_order exDB9 "D1" 100 7).1.orders.length = 1 ∧
    (create_order exDB9 "D1" 100 7).1.wallet_transactions.map
        (fun t => (t.typ, t.amount)) = [(.ORDER_PAYMENT, -100)] := by
  refine ⟨by norm_num, ?_, ?_, ?_⟩ <;>
    norm_num [create_order, exDB9, findDistributor, setDistributorBalance,
      List.find?]

/-- C9 (amended): order placement does not enforce the credit limit:
even when the total exceeds `wallet_balance + credit_limit` (the
handler only logs a warning), the order is placed and an ORDER_PAYMENT
transaction of the full negated total is recorded. -/
theorem order_exceeding_credit_still_placed (db : DB) (did : String)
    (total : ℚ) (now : Nat) (d : Distributor)
    (hd : findDistributor db did = some d)
    (_hover : total > d.wallet_balance + d.credit_limit) :
    (∃ o, (create_order db did total now).2 = .ok o) ∧
    ({ id := "ORD-" ++ toString now, distributor_id := did, date := now,
       total_amount := total, status := .PENDING } : OrderRec)
      ∈ (create_order db did total now).1.orders ∧
    (∃ t ∈ (create_order db did total now).1.wallet_transactions,
      t.typ = .ORDER_PAYMENT ∧ t.amount = -total ∧
      t.order_id = some ("ORD-" ++ toString now)) := by
  simp only [create_order, hd]
  refine ⟨⟨_, rfl⟩, ?_, ?_⟩
  · exact List.mem_append_right _ (List.mem_singleton_self _)
  · exact ⟨_, List.mem_append_right _ (List.mem_singleton_self _),
      rfl, rfl, rfl⟩

/-- Witness for C9 (amended): the concrete over-limit order. -/
theorem order_exceeding_credit_still_placed_witness :
    (100 : ℚ) > 10 + 5 ∧
    ((∃ o, (create_order exDB9 "D1" 100 7).2 = .ok o) ∧
    ({ id := "ORD-" ++ toString 7, distributor_id := "D1", date := 7,
       total_amount := 100, status := .PENDING } : OrderRec)
      ∈ (create_order exDB9 "D1" 100 7).1.orders ∧
    (∃ t ∈ (create_order exDB9 "D1" 100 7).1.wallet_transactions,
      t.typ = .ORDER_PAYMENT ∧ t.amount = -100 ∧
      t.order_id = some ("ORD-" ++ toString 7))) :=
  ⟨by norm_num,
   order_exceeding_credit_still_placed exDB9 "D1" 100 7
     { id := "D1", wallet_balance := 10, credit_limit := 5 }
     (by decide) (by norm_num)⟩

/-- C10: a recharge or journal-voucher request carrying neither a
distributor id nor a store id falls through both branches: no row is
inserted, no balance recomputed or written, and the handler still
returns its success message. -/
theorem no_account_id_no_mutation (db : DB) (r : WalletRecharge)
    (j : JournalVoucher) (hr1 : r.distributorId = none)
    (hr2 : r.storeId = none) (hj1 : j.distributorId = none)
    (hj2 : j.storeId = none) :
    recharge_wallet db r = (db, .ok "Wallet recharged successfully") ∧
    record_journal_voucher db j
      = (db, .ok "Journal voucher recorded successfully") := by
  constructor
  · simp only [recharge_wallet, hr1, hr2]
  · simp only [record_journal_voucher, hj1, hj2]

/-- Witness for C10: applied to the populated three-transaction state. -/
theorem no_account_id_no_mutation_witness :
    ({ distributorId := none, storeId := none, amount := 5,
       date := 1 } : WalletRecharge).distributorId = none ∧
    ({ distributorId := none, storeId := none, amount := 5,
       date := 1 } : WalletRecharge).storeId = none ∧
    (recharge_wallet exDB3
        { distributorId := none, storeId := none, amount := 5, date := 1 }
      = (exDB3, .ok "Wallet recharged successfully") ∧
    record_journal_voucher exDB3
        { distributorId := none, storeId := none, amount := -5, date := 2 }
      = (exDB3, .ok "Journal voucher recorded successfully")) :=
  ⟨rfl, rfl,
   no_account_id_no_mutation exDB3
     { distributorId := none, storeId := none, amount := 5, date := 1 }
     { distributorId := none, storeId := none, amount := -5, date := 2 }
     rfl rfl rfl rfl⟩

/-- Witness for C7 (amended): applied to the concrete state. -/
theorem order_debit_failure_leaves_order_witness :
    findDistributor exDB9 "D1"
      = some { id := "D1", wallet_balance := 10, credit_limit := 5 } ∧
    ((create_order_failAt exDB9 "D1" 100 1 1).2
      = .error ⟨500, "update of distributors failed"⟩ ∧
    ({ id := "ORD-" ++ toString 1, distributor_id := "D1", date := 1,
       total_amount := 100, status := .PENDING } : OrderRec)
      ∈ (create_order_failAt exDB9 "D1" 100 1 1).1.orders ∧
    (create_order_failAt exDB9 "D1" 100 1 1).1.distributors
      = exDB9.distributors ∧
    (create_order_failAt exDB9 "D1" 100 1 1).1.wallet_transactions
      = exDB9.wallet_transactions) :=
  ⟨by decide,
   order_debit_failure_leaves_order exDB9 "D1" 100 1
     { id := "D1", wallet_balance := 10, credit_limit := 5 } (by decide)⟩

/-- Balance rewrites keep the date/amount projection. -/
theorem damProj_applyUpds (us : List (Nat × ℚ)) (t : Tx) :
    damProj (applyUpds us t) = damProj t := by
  simp [damProj, (applyUpds_fields us t).2.1, (applyUpds_fields us t).2.2.1]

/-- Appending a fresh recharge row keeps the table well-formed. -/
theorem wf_recomputeStateD_append (db : DB) (did : String) (tx : Tx)
    (hW : WellFormed db) (hid : tx.id = db.nextTxId) :
    WellFormed (recomputeStateD db did [tx] 1) := by
  refine wf_append_ids db _ hW ?_ rfl
  rw [recomputeStateD_txs, ids_recompute, List.map_append,
    List.map_singleton, hid]

/-- Ordered insertion only inspects dates: lists with equal
date/amount projections stay equal under it. -/
theorem orderedInsert_dam (e e' : Tx) (he : damProj e = damProj e') :
    ∀ (U V : List Tx), U.map damProj = V.map damProj →
    (List.orderedInsert (fun a b : Tx => a.date ≤ b.date) e U).map damProj
      = (List.orderedInsert (fun a b : Tx => a.date ≤ b.date) e' V).map damProj := by
  have hed : e.date = e'.date := congrArg Prod.fst he
  intro U
  induction U with
  | nil =>
    intro V hUV
    cases V with
    | nil => simpa [List.orderedInsert] using he
    | cons v V2 => simp at hUV
  | cons u U2 ih =>
    intro V hUV
    cases V with
    | nil => simp at hUV
    | cons v V2 =>
      simp only [List.map_cons, List.cons.injEq] at hUV
      obtain ⟨huv, hUV2⟩ := hUV
      have hud : u.date = v.date := congrArg Prod.fst huv
      by_cases hle : e.date ≤ u.date
      · rw [List.orderedInsert, List.orderedInsert, if_pos hle,
          if_pos (by rw [← hed, ← hud]; exact hle)]
        simp only [List.map_cons]
        rw [he, huv, hUV2]
      · rw [List.orderedInsert, List.orderedInsert, if_neg hle,
          if_neg (by rw [← hed, ← hud]; exact hle)]
        simp only [List.map_cons]
        rw [huv, ih V2 hUV2]

/-- Appending two strictly-ordered fresh rows in either order gives
date-sorted tables with identical date/amount projections, whatever
balance rewrites the surrounding rows carry. -/
theorem sort_append_two_dam (x y x' y' : Tx)
    (hx : damProj x = damProj x') (hy : damProj y = damProj y')
    (hlt : y.date < x.date) :
    ∀ (E E' : List Tx), E.map damProj = E'.map damProj →
    (sortByDate (E ++ [x, y])).map damProj
      = (sortByDate (E' ++ [y', x'])).map damProj := by
  have hxd : x.date = x'.date := congrArg Prod.fst hx
  have hyd : y.date = y'.date := congrArg Prod.fst hy
  intro E
  induction E with
  | nil =>
    intro E' hE
    cases E' with
    | nil =>
      have h1 : sortByDate [x, y] = [y, x] := by
        simp only [sortByDate, List.insertionSort, List.orderedInsert]
        rw [if_neg (not_le_of_lt hlt)]
      have h2 : sortByDate [y', x'] = [y', x'] := by
        simp only [sortByDate, List.insertionSort, List.orderedInsert]
        rw [if_pos (by rw [← hyd, ← hxd]; exact le_of_lt hlt)]
      simp only [List.nil_append]
      rw [h1, h2]
      simp only [List.map_cons, List.map_nil]
      rw [hx, hy]
    | cons => simp at hE
  | cons eh E2 ih =>
    intro E' hE
    cases E' with
    | nil => simp at hE
    | cons eh' E3 =>
      simp only [List.map_cons, List.cons.injEq] at hE
      obtain ⟨heh, hE3⟩ := hE
      show (List.orderedInsert _ eh (sortByDate (E2 ++ [x, y]))).map damProj
        = (List.orderedInsert _ eh' (sortByDate (E3 ++ [y', x']))).map damProj
      exact orderedInsert_dam eh eh' heh _ _ (ih E3 hE3)

/-- The semantic projection of a recomputed, date-sorted slice depends
only on the date/amount projections. -/
theorem projRow_zip_running (S : List Tx) (r : ℚ) :
    (List.zipWith (fun t b => { t with balance_after := b }) S
      (runningList r S)).map projRow
      = runProj r (S.map damProj) := by
  induction S generalizing r with
  | nil => rfl
  | cons t ts ih =>
    show projRow { t with balance_after := r + t.amount }
        :: (List.zipWith _ ts (runningList (r + t.amount) ts)).map projRow
      = (t.date, t.amount, r + t.amount) :: runProj (r + t.amount) (ts.map damProj)
    rw [ih (r + t.amount)]
    rfl

/-- Dates and amounts of an account slice survive a recompute. -/
theorem dam_map_applyUpds (us : List (Nat × ℚ)) (A : List Tx) :
    (A.map (applyUpds us)).map damProj = A.map damProj := by
  rw [List.map_map]
  exact List.map_congr_left (fun t _ => damProj_applyUpds us t)

/-- The account slice of the table after a recharge-recompute, with the
next inserted row appended. -/
theorem slice_after_recharge (db : DB) (did : String) (txa txb : Tx)
    (howna : ownedByDistributor did txa = true)
    (hownb : ownedByDistributor did txb = true) :
    ((recomputeStateD db did [txa] 1).wallet_transactions ++ [txb]).filter
        (ownedByDistributor did)
      = (txsOfDistributor db did).map (applyUpds
          (runningUpdates 0 (sortByDate ((db.wallet_transactions
            ++ [txa]).filter (ownedByDistributor did)))))
        ++ [applyUpds (runningUpdates 0 (sortByDate ((db.wallet_transactions
            ++ [txa]).filter (ownedByDistributor did)))) txa, txb] := by
  rw [recomputeStateD_txs, recompute_fst, filter_append_txs,
    filter_map_pres _ _ (fun t => ownedByDistributor_applyUpds did _ t),
    filter_append_txs]
  have h1 : [txa].filter (ownedByDistributor did) = [txa] := by
    simp [howna]
  have h2 : [txb].filter (ownedByDistributor did) = [txb] := by
    simp [hownb]
  rw [h1, h2, List.map_append, List.map_singleton, List.append_assoc]
  rfl

/-- C5: inserting two transactions T1 (date d1) and T2 (date d2 < d1)
through the full-recompute recharge path in either call order yields an
account ledger whose date-sorted rows agree on date, amount and
`balance_after` for every row, and an identical final cached balance. -/
theorem insert_order_independence (db : DB) (did : String)
    (d : Distributor) (a1 a2 : ℚ) (d1 d2 : Nat) (hW : WellFormed db)
    (hd : findDistributor db did = some d) (hlt : d2 < d1) :
    ((sortByDate (txsOfDistributor (recharge_wallet (recharge_wallet db
        { distributorId := some did, storeId := none, amount := a1, date := d1 }).1
        { distributorId := some did, storeId := none, amount := a2, date := d2 }).1
        did)).map projRow
      = (sortByDate (txsOfDistributor (recharge_wallet (recharge_wallet db
          { distributorId := some did, storeId := none, amount := a2, date := d2 }).1
          { distributorId := some did, storeId := none, amount := a1, date := d1 }).1
          did)).map projRow) ∧
    ((findDistributor (recharge_wallet (recharge_wallet db
        { distributorId := some did, storeId := none, amount := a1, date := d1 }).1
        { distributorId := some did, storeId := none, amount := a2, date := d2 }).1
        did).map Distributor.wallet_balance
      = (findDistributor (recharge_wallet (recharge_wallet db
          { distributorId := some did, storeId := none, amount := a2, date := d2 }).1
          { distributorId := some did, storeId := none, amount := a1, date := d1 }).1
          did).map Distributor.wallet_balance) := by
  set r1 : WalletRecharge :=
    { distributorId := some did, storeId := none, amount := a1, date := d1 }
    with hr1
  set r2 : WalletRecharge :=
    { distributorId := some did, storeId := none, amount := a2, date := d2 }
    with hr2
  obtain ⟨dA1, hfdA1⟩ : ∃ dA1, findDistributor
      (recomputeStateD db did [rechargeTxD db did r1] 1) did = some dA1 := by
    rw [findDistributor_recomputeStateD, hd]
    exact ⟨_, rfl⟩
  obtain ⟨dB1, hfdB1⟩ : ∃ dB1, findDistributor
      (recomputeStateD db did [rechargeTxD db did r2] 1) did = some dB1 := by
    rw [findDistributor_recomputeStateD, hd]
    exact ⟨_, rfl⟩
  have wfA1 : WellFormed (recomputeStateD db did [rechargeTxD db did r1] 1) :=
    wf_recomputeStateD_append db did _ hW rfl
  have wfB1 : WellFormed (recomputeStateD db did [rechargeTxD db did r2] 1) :=
    wf_recomputeStateD_append db did _ hW rfl
  have hA1 := recharge_dist_eq db r1 did d rfl hd
  have hB1 := recharge_dist_eq db r2 did d rfl hd
  have hA2 := recharge_dist_eq
    (recomputeStateD db did [rechargeTxD db did r1] 1) r2 did dA1 rfl hfdA1
  have hB2 := recharge_dist_eq
    (recomputeStateD db did [rechargeTxD db did r2] 1) r1 did dB1 rfl hfdB1
  rw [hA1, hB1]
  dsimp only
  rw [hA2, hB2]
  dsimp only
  have hsliceA := slice_after_recharge db did (rechargeTxD db did r1)
    (rechargeTxD (recomputeStateD db did [rechargeTxD db did r1] 1) did r2)
    (by simp [rechargeTxD, ownedByDistributor])
    (by simp [rechargeTxD, ownedByDistributor])
  have hsliceB := slice_after_recharge db did (rechargeTxD db did r2)
    (rechargeTxD (recomputeStateD db did [rechargeTxD db did r2] 1) did r1)
    (by simp [rechargeTxD, ownedByDistributor])
    (by simp [rechargeTxD, ownedByDistributor])
  constructor
  · rw [sorted_slice_recomputeStateD _ did _ wfA1 rfl,
      sorted_slice_recomputeStateD _ did _ wfB1 rfl,
      projRow_zip_running, projRow_zip_running]
    apply congrArg (runProj 0)
    rw [hsliceA, hsliceB]
    apply sort_append_two_dam
    · rw [damProj_applyUpds]
      rfl
    · rw [damProj_applyUpds]
      rfl
    · show (rechargeTxD _ did r2).date
        < (applyUpds _ (rechargeTxD db did r1)).date
      rw [(applyUpds_fields _ (rechargeTxD db did r1)).2.1]
      exact hlt
    · rw [dam_map_applyUpds, dam_map_applyUpds]
  · simp only [findDistributor_recomputeStateD, hd, Option.map_some']
    apply congrArg
    show (recomputeTxs (ownedByDistributor did) _).2.1
      = (recomputeTxs (ownedByDistributor did) _).2.1
    rw [recompute_final, recompute_final, hsliceA, hsliceB,
      txSum_append, txSum_append, txSum_map_applyUpds, txSum_map_applyUpds]
    have ha : ∀ (us : List (Nat × ℚ)) (t : Tx),
        txSum [applyUpds us t, rechargeTxD
          (recomputeStateD db did [rechargeTxD db did r1] 1) did r2]
          = t.amount + r2.amount := by
      intro us t
      simp [txSum, (applyUpds_fields us t).2.2.1, rechargeTxD]
    have hb : ∀ (us : List (Nat × ℚ)) (t : Tx),
        txSum [applyUpds us t, rechargeTxD
          (recomputeStateD db did [rechargeTxD db did r2] 1) did r1]
          = t.amount + r1.amount := by
      intro us t
      simp [txSum, (applyUpds_fields us t).2.2.1, rechargeTxD]
    rw [ha, hb]
    show txSum (txsOfDistributor db did) + ((rechargeTxD db did r1).amount + r2.amount)
      = txSum (txsOfDistributor db did) + ((rechargeTxD db did r2).amount + r1.amount)
    show txSum (txsOfDistributor db did) + (r1.amount + r2.amount)
      = txSum (txsOfDistributor db did) + (r2.amount + r1.amount)
    rw [add_comm r1.amount r2.amount]

/-- Witness for C5: the two insertion orders on the concrete
three-transaction state, T1 at date 50 (+7) and T2 at date 5 (+9). -/
theorem insert_order_independence_witness :
    WellFormed exDB3 ∧ findDistributor exDB3 "D1" = some exD1 ∧
    (5 : Nat) < 50 ∧
    (((sortByDate (txsOfDistributor (recharge_wallet (recharge_wallet exDB3
        { distributorId := some "D1", storeId := none, amount := 7, date := 50 }).1
        { distributorId := some "D1", storeId := none, amount := 9, date := 5 }).1
        "D1")).map projRow
      = (sortByDate (txsOfDistributor (recharge_wallet (recharge_wallet exDB3
          { distributorId := some "D1", storeId := none, amount := 9, date := 5 }).1
          { distributorId := some "D1", storeId := none, amount := 7, date := 50 }).1
          "D1")).map projRow) ∧
    ((findDistributor (recharge_wallet (recharge_wallet exDB3
        { distributorId := some "D1", storeId := none, amount := 7, date := 50 }).1
        { distributorId := some "D1", storeId := none, amount := 9, date := 5 }).1
        "D1").map Distributor.wallet_balance
      = (findDistributor (recharge_wallet (recharge_wallet exDB3
          { distributorId := some "D1", storeId := none, amount := 9, date := 5 }).1
          { distributorId := some "D1", storeId := none, amount := 7, date := 50 }).1
          "D1").map Distributor.wallet_balance)) :=
  ⟨by unfold WellFormed; decide, by decide, by decide,
   insert_order_independence exDB3 "D1" exD1 7 9 50 5
     (by unfold WellFormed; decide) (by decide) (by decide)⟩

/-- Store-side mirror of `sorted_slice_recomputeStateD`. -/
theorem sorted_slice_recomputeStateS (db : DB) (sid : String) (tx : Tx)
    (hW : WellFormed db) (hid : tx.id = db.nextTxId) :
    sortByDate (txsOfStore (recomputeStateS db sid [tx] 1) sid)
      = List.zipWith (fun t b => { t with balance_after := b })
          (sortByDate ((db.wallet_transactions ++ [tx]).filter
            (ownedByStore sid)))
          (runningList 0 (sortByDate ((db.wallet_transactions ++ [tx]).filter
            (ownedByStore sid)))) := by
  have h1 : txsOfStore (recomputeStateS db sid [tx] 1) sid
      = ((recomputeTxs (ownedByStore sid)
          (db.wallet_transactions ++ [tx])).1).filter (ownedByStore sid) := by
    simp only [txsOfStore, recomputeStateS_txs]
  rw [h1]
  exact recompute_sorted_filter (ownedByStore sid) _
    (nodup_ids_append db tx hW hid)
    (fun us t => ownedByStore_applyUpds sid us t)

/-- Store-side mirror of `lastBalance_recomputeStateD`. -/
theorem lastBalance_recomputeStateS (db : DB) (sid : String) (tx : Tx)
    (hW : WellFormed db) (hid : tx.id = db.nextTxId)
    (hown : ownedByStore sid tx = true) :
    ((sortByDate (txsOfStore (recomputeStateS db sid [tx] 1) sid)).getLast?).map
        Tx.balance_after
      = some ((recomputeTxs (ownedByStore sid)
          (db.wallet_transactions ++ [tx])).2.1) := by
  rw [sorted_slice_recomputeStateS db sid tx hW hid]
  have hne : sortByDate ((db.wallet_transactions ++ [tx]).filter
      (ownedByStore sid)) ≠ [] := by
    have hmem : tx ∈ (db.wallet_transactions ++ [tx]).filter
        (ownedByStore sid) := by
      rw [List.mem_filter]
      exact ⟨List.mem_append_right _ (List.mem_singleton_self tx), hown⟩
    exact List.ne_nil_of_mem ((List.mem_insertionSort _).mpr hmem)
  exact zip_set_getLast _ 0 hne

/-- The account slice of the recompute state with no inserted row
(recalculate), in date order. -/
theorem sorted_slice_plainD (db : DB) (did : String) (hW : WellFormed db) :
    sortByDate (txsOfDistributor (recomputeStateD db did [] 0) did)
      = List.zipWith (fun t b => { t with balance_after := b })
          (sortByDate ((db.wallet_transactions ++ []).filter
            (ownedByDistributor did)))
          (runningList 0 (sortByDate ((db.wallet_transactions ++ []).filter
            (ownedByDistributor did)))) := by
  have h1 : txsOfDistributor (recomputeStateD db did [] 0) did
      = ((recomputeTxs (ownedByDistributor did)
          (db.wallet_transactions ++ [])).1).filter (ownedByDistributor did) := by
    simp only [txsOfDistributor, recomputeStateD_txs]
  rw [h1]
  refine recompute_sorted_filter _ _ ?_
    (fun us t => ownedByDistributor_applyUpds did us t)
  rw [List.append_nil]
  exact hW.1

/-- Store-side mirror of `sorted_slice_plainD`. -/
theorem sorted_slice_plainS (db : DB) (sid : String) (hW : WellFormed db) :
    sortByDate (txsOfStore (recomputeStateS db sid [] 0) sid)
      = List.zipWith (fun t b => { t with balance_after := b })
          (sortByDate ((db.wallet_transactions ++ []).filter
            (ownedByStore sid)))
          (runningList 0 (sortByDate ((db.wallet_transactions ++ []).filter
            (ownedByStore sid)))) := by
  have h1 : txsOfStore (recomputeStateS db sid [] 0) sid
      = ((recomputeTxs (ownedByStore sid)
          (db.wallet_transactions ++ [])).1).filter (ownedByStore sid) := by
    simp only [txsOfStore, recomputeStateS_txs]
  rw [h1]
  refine recompute_sorted_filter _ _ ?_
    (fun us t => ownedByStore_applyUpds sid us t)
  rw [List.append_nil]
  exact hW.1

/-- After recalculate on a distributor with at least one transaction,
the chronologically last row carries the recompute's final balance. -/
theorem lastBalance_plainD (db : DB) (did : String) (hW : WellFormed db)
    (hne : txsOfDistributor db did ≠ []) :
    ((sortByDate (txsOfDistributor (recomputeStateD db did [] 0)
        did)).getLast?).map Tx.balance_after
      = some ((recomputeTxs (ownedByDistributor did)
          (db.wallet_transactions ++ [])).2.1) := by
  rw [sorted_slice_plainD db did hW]
  have hfe : (db.wallet_transactions ++ []).filter
      (ownedByDistributor did) ≠ [] := by
    rw [List.append_nil]
    exact hne
  have hSne : sortByDate ((db.wallet_transactions ++ []).filter
      (ownedByDistributor did)) ≠ [] := by
    obtain ⟨t, ht⟩ := List.exists_mem_of_ne_nil _ hfe
    exact List.ne_nil_of_mem ((List.mem_insertionSort _).mpr ht)
  exact zip_set_getLast _ 0 hSne

/-- Store-side mirror of `lastBalance_plainD`. -/
theorem lastBalance_plainS (db : DB) (sid : String) (hW : WellFormed db)
    (hne : txsOfStore db sid ≠ []) :
    ((sortByDate (txsOfStore (recomputeStateS db sid [] 0)
        sid)).getLast?).map Tx.balance_after
      = some ((recomputeTxs (ownedByStore sid)
          (db.wallet_transactions ++ [])).2.1) := by
  rw [sorted_slice_plainS db sid hW]
  have hfe : (db.wallet_transactions ++ []).filter (ownedByStore sid) ≠ [] := by
    rw [List.append_nil]
    exact hne
  have hSne : sortByDate ((db.wallet_transactions ++ []).filter
      (ownedByStore sid)) ≠ [] := by
    obtain ⟨t, ht⟩ := List.exists_mem_of_ne_nil _ hfe
    exact List.ne_nil_of_mem ((List.mem_insertionSort _).mpr ht)
  exact zip_set_getLast _ 0 hSne

/-- C1 (amended): from a consistent, well-formed state, after any
sequence of ledger-mutating operations every account's cached
`wallet_balance` equals the sum of the signed amounts of its wallet
transactions (`Consistent`); and immediately after a full-recompute
operation on an account - a recharge or journal voucher on a
distributor or store, or a recalculate on an account that has at least
one transaction - the cached balance moreover equals the
`balance_after` of the account's chronologically last transaction.
(The last-transaction equality does not survive later O(1) appends
dated before an existing transaction - see the counterexample.) -/
theorem wallet_balance_sum_invariant (db : DB) (ops : List LedgerOp)
    (h : LedgerInv db) :
    Consistent (applyOps db ops) ∧
    (∀ (r : WalletRecharge) (did : String) (d : Distributor),
      r.distributorId = some did →
      findDistributor (applyOps db ops) did = some d →
      LastSnapshotAgreesD (recharge_wallet (applyOps db ops) r).1 did) ∧
    (∀ (r : WalletRecharge) (sid : String) (s : Store),
      r.distributorId = none → r.storeId = some sid →
      findStore (applyOps db ops) sid = some s →
      LastSnapshotAgreesS (recharge_wallet (applyOps db ops) r).1 sid) ∧
    (∀ (j : JournalVoucher) (did : String) (d : Distributor),
      j.distributorId = some did →
      findDistributor (applyOps db ops) did = some d →
      LastSnapshotAgreesD (record_journal_voucher (applyOps db ops) j).1 did) ∧
    (∀ (j : JournalVoucher) (sid : String) (s : Store),
      j.distributorId = none → j.storeId = some sid →
      findStore (applyOps db ops) sid = some s →
      LastSnapshotAgreesS (record_journal_voucher (applyOps db ops) j).1 sid) ∧
    (∀ (did : String) (d : Distributor),
      findDistributor (applyOps db ops) did = some d →
      txsOfDistributor (applyOps db ops) did ≠ [] →
      LastSnapshotAgreesD
        (recalculate_wallet_balances (applyOps db ops) "distributor" did).1
        did) ∧
    (∀ (sid : String) (s : Store),
      findStore (applyOps db ops) sid = some s →
      txsOfStore (applyOps db ops) sid ≠ [] →
      LastSnapshotAgreesS
        (recalculate_wallet_balances (applyOps db ops) "store" sid).1
        sid) := by
  have hf : LedgerInv (applyOps db ops) := ledgerInv_applyOps db ops h
  refine ⟨hf.1, ?_, ?_, ?_, ?_, ?_, ?_⟩
  · intro r did d h1 h2
    rw [recharge_dist_eq (applyOps db ops) r did d h1 h2]
    unfold LastSnapshotAgreesD
    rw [lastBalance_recomputeStateD (applyOps db ops) did _ hf.2 rfl
      (by simp [rechargeTxD, ownedByDistributor])]
    rw [findDistributor_recomputeStateD, h2]
    rfl
  · intro r sid s h1 h1b h2
    rw [recharge_store_eq (applyOps db ops) r sid s h1 h1b h2]
    unfold LastSnapshotAgreesS
    rw [lastBalance_recomputeStateS (applyOps db ops) sid _ hf.2 rfl
      (by simp [rechargeTxS, ownedByStore])]
    rw [findStore_recomputeStateS, h2]
    rfl
  · intro j did d h1 h2
    rw [jv_dist_eq (applyOps db ops) j did d h1 h2]
    unfold LastSnapshotAgreesD
    rw [lastBalance_recomputeStateD (applyOps db ops) did _ hf.2 rfl
      (by simp [jvTxD, ownedByDistributor])]
    rw [findDistributor_recomputeStateD, h2]
    rfl
  · intro j sid s h1 h1b h2
    rw [jv_store_eq (applyOps db ops) j sid s h1 h1b h2]
    unfold LastSnapshotAgreesS
    rw [lastBalance_recomputeStateS (applyOps db ops) sid _ hf.2 rfl
      (by simp [jvTxS, ownedByStore])]
    rw [findStore_recomputeStateS, h2]
    rfl
  · intro did d h2 hne
    rw [recalc_dist_eq (applyOps db ops) did d h2]
    unfold LastSnapshotAgreesD
    rw [lastBalance_plainD (applyOps db ops) did hf.2 hne]
    rw [findDistributor_recomputeStateD, h2]
    rfl
  · intro sid s h2 hne
    rw [recalc_store_eq (applyOps db ops) sid s h2]
    unfold LastSnapshotAgreesS
    rw [lastBalance_plainS (applyOps db ops) sid hf.2 hne]
    rw [findStore_recomputeStateS, h2]
    rfl

/-- Witness for C1: the invariant theorem applied to the fresh
single-distributor state and a concrete recharge. -/
theorem wallet_balance_sum_invariant_witness :
    LedgerInv exFresh ∧
    (Consistent (applyOps exFresh
      [LedgerOp.recharge { distributorId := some "D1", storeId := none,
                           amount := 5, date := 1 }]) ∧
    (∀ (r : WalletRecharge) (did : String) (d : Distributor),
      r.distributorId = some did →
      findDistributor (applyOps exFresh
        [LedgerOp.recharge { distributorId := some "D1", storeId := none,
                             amount := 5, date := 1 }]) did = some d →
      LastSnapshotAgreesD (recharge_wallet (applyOps exFresh
        [LedgerOp.recharge { distributorId := some "D1", storeId := none,
                             amount := 5, date := 1 }]) r).1 did) ∧
    (∀ (r : WalletRecharge) (sid : String) (s : Store),
      r.distributorId = none → r.storeId = some sid →
      findStore (applyOps exFresh
        [LedgerOp.recharge { distributorId := some "D1", storeId := none,
                             amount := 5, date := 1 }]) sid = some s →
      LastSnapshotAgreesS (recharge_wallet (applyOps exFresh
        [LedgerOp.recharge { distributorId := some "D1", storeId := none,
                             amount := 5, date := 1 }]) r).1 sid) ∧
    (∀ (j : JournalVoucher) (did : String) (d : Distributor),
      j.distributorId = some did →
      findDistributor (applyOps exFresh
        [LedgerOp.recharge { distributorId := some "D1", storeId := none,
                             amount := 5, date := 1 }]) did = some d →
      LastSnapshotAgreesD (record_journal_voucher (applyOps exFresh
        [LedgerOp.recharge { distributorId := some "D1", storeId := none,
                             amount := 5, date := 1 }]) j).1 did) ∧
    (∀ (j : JournalVoucher) (sid : String) (s : Store),
      j.distributorId = none → j.storeId = some sid →
      findStore (applyOps exFresh
        [LedgerOp.recharge { distributorId := some "D1", storeId := none,
                             amount := 5, date := 1 }]) sid = some s →
      LastSnapshotAgreesS (record_journal_voucher (applyOps exFresh
        [LedgerOp.recharge { distributorId := some "D1", storeId := none,
                             amount := 5, date := 1 }]) j).1 sid) ∧
    (∀ (did : String) (d : Distributor),
      findDistributor (applyOps exFresh
        [LedgerOp.recharge { distributorId := some "D1", storeId := none,
                             amount := 5, date := 1 }]) did = some d →
      txsOfDistributor (applyOps exFresh
        [LedgerOp.recharge { distributorId := some "D1", storeId := none,
                             amount := 5, date := 1 }]) did ≠ [] →
      LastSnapshotAgreesD (recalculate_wallet_balances (applyOps exFresh
        [LedgerOp.recharge { distributorId := some "D1", storeId := none,
                             amount := 5, date := 1 }]) "distributor" did).1
        did) ∧
    (∀ (sid : String) (s : Store),
      findStore (applyOps exFresh
        [LedgerOp.recharge { distributorId := some "D1", storeId := none,
                             amount := 5, date := 1 }]) sid = some s →
      txsOfStore (applyOps exFresh
        [LedgerOp.recharge { distributorId := some "D1", storeId := none,
                             amount := 5, date := 1 }]) sid ≠ [] →
      LastSnapshotAgreesS (recalculate_wallet_balances (applyOps exFresh
        [LedgerOp.recharge { distributorId := some "D1", storeId := none,
                             amount := 5, date := 1 }]) "store" sid).1
        sid)) :=
  ⟨by unfold LedgerInv Consistent WellFormed; decide,
   wallet_balance_sum_invariant exFresh
     [LedgerOp.recharge { distributorId := some "D1", storeId := none,
                          amount := 5, date := 1 }]
     (by unfold LedgerInv Consistent WellFormed; decide)⟩
